import Mathlib

/-!
Verification of the Budget-buddy ledger reconciliation engine
(`backend/app/services/sheets_service.py` and
`backend/app/services/analysis_service.py`), shallowly embedded in Lean.

Strings are modelled as Lean `String` (ASCII semantics for case folding and
whitespace); floats are modelled as `ℚ`; Python exceptions that can escape a
function are modelled with `Except`; `datetime` values are modelled by a
record of calendar fields with proleptic-Gregorian arithmetic.
-/

attribute [local semireducible] Rat.add Rat.mul Rat.sub Rat.inv

set_option maxRecDepth 100000

/-- Python `str.lower` on one character (ASCII range, as used by the code). -/
def pyLowerChar (c : Char) : Char :=
  if 65 ≤ c.toNat ∧ c.toNat ≤ 90 then Char.ofNat (c.toNat + 32) else c

/-- Python `str.upper` on one character (ASCII range). -/
def pyUpperChar (c : Char) : Char :=
  if 97 ≤ c.toNat ∧ c.toNat ≤ 122 then Char.ofNat (c.toNat - 32) else c

/-- Python whitespace (`str.strip` default / `\s`), ASCII part. -/
def pyIsSpace (c : Char) : Bool :=
  c = ' ' || c = '\t' || c = '\n' || c = '\x0d' || c = '\x0b' || c = '\x0c'

/-- `str.lower` on a character list. -/
def pyLowerL (l : List Char) : List Char := l.map pyLowerChar

/-- `str.upper` on a character list. -/
def pyUpperL (l : List Char) : List Char := l.map pyUpperChar

/-- `str.strip` on a character list: drop whitespace at both ends. -/
def pyStripL (l : List Char) : List Char :=
  ((l.dropWhile pyIsSpace).reverse.dropWhile pyIsSpace).reverse

/-- `str.lower` on strings. -/
def pyLower (s : String) : String := ⟨pyLowerL s.data⟩

/-- `str.upper` on strings. -/
def pyUpper (s : String) : String := ⟨pyUpperL s.data⟩

/-- `str.strip` on strings. -/
def pyStrip (s : String) : String := ⟨pyStripL s.data⟩

example : pyLower "WAL-MART " = "wal-mart " := by decide
example : pyStrip "  a s " = "a s" := by decide

/-- Helper for `collapseWSL`: the flag records whether the previous kept
character position was inside a whitespace run. -/
def collapseWSAux : List Char → Bool → List Char
  | [], _ => []
  | c :: rest, inRun =>
    if pyIsSpace c then
      if inRun then collapseWSAux rest true else ' ' :: collapseWSAux rest true
    else c :: collapseWSAux rest false

/-- Collapse runs of whitespace to one space (net effect of the two `re.sub`
calls in `normalize_item_name`: first `[\n\r\t]+` to a space, then `\s+`). -/
def collapseWSL (l : List Char) : List Char := collapseWSAux l false

/-- Helper for `pyWordsL`: `acc` is the current word, reversed. -/
def pyWordsAux : List Char → List Char → List (List Char)
  | [], acc => if acc.isEmpty then [] else [acc.reverse]
  | c :: rest, acc =>
    if pyIsSpace c then
      if acc.isEmpty then pyWordsAux rest [] else acc.reverse :: pyWordsAux rest []
    else pyWordsAux rest (c :: acc)

/-- Python `str.split()` (no argument): split on whitespace runs, no empties. -/
def pyWordsL (l : List Char) : List (List Char) := pyWordsAux l []

/-- Value of a digit list read most-significant first, `none` if non-digit. -/
def digitsToNat : List Char → Option Nat
  | [] => some 0
  | c :: rest =>
    if c.isDigit then
      (digitsToNat rest).map (fun v => (c.toNat - 48) * 10 ^ rest.length + v)
    else none

/-- Python `float(s)` on the decimal forms the sheets contain: optional sign,
digits with at most one dot, at least one digit; surrounding whitespace is
ignored.  (Exponents, `inf`/`nan` and underscores are not modelled; unused by
the data in play.)  `none` models the `ValueError` raise. -/
def pyFloat (s : String) : Option ℚ :=
  let l := pyStripL s.data
  let (sign, l) : ℚ × List Char :=
    match l with
    | '-' :: rest => (-1, rest)
    | '+' :: rest => (1, rest)
    | _ => (1, l)
  let intPart := l.takeWhile Char.isDigit
  let rest := l.dropWhile Char.isDigit
  match rest with
  | [] =>
    if intPart.isEmpty then none
    else (digitsToNat intPart).map (fun v => sign * v)
  | '.' :: frac =>
    if frac.all Char.isDigit ∧ ¬(intPart.isEmpty ∧ frac.isEmpty) then
      match digitsToNat intPart, digitsToNat frac with
      | some i, some f => some (sign * ((i : ℚ) + (f : ℚ) / (10 ^ frac.length)))
      | _, _ => none
    else none
  | _ => none

example : pyFloat "3.50" = some (7/2) := by decide
example : pyFloat " 10 " = some 10 := by decide
example : pyFloat "-2.5" = some (-5/2) := by decide
example : pyFloat "" = none := by decide
example : pyFloat "abc" = none := by decide
example : pyFloat "." = none := by decide

/-- Python `round` to an integer: round-half-to-even. -/
def pyRound (q : ℚ) : Int :=
  let f := ⌊q⌋
  let r := q - f
  if r < 1/2 then f
  else if 1/2 < r then f + 1
  else if f % 2 = 0 then f else f + 1

example : pyRound (5/2) = 2 := by decide
example : pyRound (7/2) = 4 := by decide
example : pyRound (160/3) = 53 := by decide

/-- Python `round(x, 2)` / the `f"{x:.2f}"` grouping key, as a rational. -/
def pyRound2 (q : ℚ) : ℚ := (pyRound (q * 100) : ℚ) / 100

/-- Python `round(x, 1)`. -/
def pyRound1 (q : ℚ) : ℚ := (pyRound (q * 10) : ℚ) / 10

/-- Python `str.endswith` on character lists. -/
def endsWithL (l suf : List Char) : Bool := suf.isSuffixOf l

/-- Drop the last `n` characters (Python `s[:-n]`). -/
def dropRightL (l : List Char) (n : Nat) : List Char := l.take (l.length - n)

/-- Core of `SheetsService._normalize_category` on character lists. -/
def normCatL (category : List Char) : List Char :=
  let normalized := pyStripL (pyLowerL category)
  if endsWithL normalized ['i', 'e', 's'] then
    dropRightL normalized 3 ++ ['y']
  else if endsWithL normalized ['s'] ∧ ¬endsWithL normalized ['s', 's'] then
    dropRightL normalized 1
  else
    normalized

/-- `SheetsService._normalize_category` (sheets_service.py:599-608):
lower-case and strip, then `ies`→`y`, else drop a trailing `s` that is not
part of `ss`. -/
def normalize_category (category : String) : String := ⟨normCatL category.data⟩

example : normalize_category "Groceries" = "grocery" := by decide
example : normalize_category "Grocery" = "grocery" := by decide
example : normalize_category "Items" = "item" := by decide
example : normalize_category "Bus" = "bu" := by decide
example : normalize_category "Glass" = "glass" := by decide
example : normalize_category "a s" = "a " := by decide
example : normalize_category "a " = "a" := by decide

/-! ## Dates: a model of the Python `datetime` values the services use -/

/-- A Python `datetime` (microseconds are not modelled; the services never
compare at sub-second granularity). -/
structure PyDateTime where
  year : Int
  month : Int
  day : Int
  hour : Int := 0
  minute : Int := 0
  second : Int := 0
deriving DecidableEq, Repr, Inhabited

/-- Days since 1970-01-01 of a proleptic-Gregorian civil date
(standard days-from-civil algorithm). -/
def daysFromCivil (y m d : Int) : Int :=
  let yy := if m ≤ 2 then y - 1 else y
  let era := yy.fdiv 400
  let yoe := yy - era * 400
  let doy := (153 * (if 2 < m then m - 3 else m + 9) + 2).fdiv 5 + d - 1
  let doe := yoe * 365 + yoe.fdiv 4 - yoe.fdiv 100 + doy
  era * 146097 + doe - 719468

/-- Inverse of `daysFromCivil`. -/
def civilFromDays (z : Int) : Int × Int × Int :=
  let z := z + 719468
  let era := z.fdiv 146097
  let doe := z - era * 146097
  let yoe := (doe - doe.fdiv 1460 + doe.fdiv 36524 - doe.fdiv 146096).fdiv 365
  let y := yoe + era * 400
  let doy := doe - (365 * yoe + yoe.fdiv 4 - yoe.fdiv 100)
  let mp := (5 * doy + 2).fdiv 153
  let d := doy - (153 * mp + 2).fdiv 5 + 1
  let m := if mp < 10 then mp + 3 else mp - 9
  (if m ≤ 2 then y + 1 else y, m, d)

example : daysFromCivil 1970 1 1 = 0 := by decide
example : daysFromCivil 2025 1 1 = 20089 := by decide
example : civilFromDays 20089 = (2025, 1, 1) := by decide

/-- Seconds since the epoch of a `PyDateTime`. -/
def PyDateTime.toSec (t : PyDateTime) : Int :=
  daysFromCivil t.year t.month t.day * 86400 + t.hour * 3600 + t.minute * 60 + t.second

/-- `PyDateTime` from seconds since the epoch. -/
def PyDateTime.ofSec (s : Int) : PyDateTime :=
  let days := s.fdiv 86400
  let rem := s - days * 86400
  let c := civilFromDays days
  { year := c.1, month := c.2.1, day := c.2.2,
    hour := rem.fdiv 3600, minute := (rem.fdiv 60).emod 60, second := rem.emod 60 }

/-- `datetime` comparison (Python compares component-wise; on the values in
play this coincides with epoch-seconds order). -/
def PyDateTime.le (a b : PyDateTime) : Bool := a.toSec ≤ b.toSec

/-- Strict `datetime` comparison. -/
def PyDateTime.lt (a b : PyDateTime) : Bool := a.toSec < b.toSec

/-- `a + timedelta(seconds=k)`. -/
def PyDateTime.addSec (t : PyDateTime) (k : Int) : PyDateTime := .ofSec (t.toSec + k)

/-- `a - timedelta(days=n)` keeps the time of day, like Python. -/
def PyDateTime.subDays (t : PyDateTime) (n : Int) : PyDateTime := t.addSec (-n * 86400)

/-- `(a - b).days` of a Python `timedelta`: floor of the difference in days. -/
def PyDateTime.diffDays (a b : PyDateTime) : Int := (a.toSec - b.toSec).fdiv 86400

/-- `datetime.weekday()`: Monday = 0 (1970-01-01 was a Thursday). -/
def PyDateTime.weekday (t : PyDateTime) : Int :=
  (daysFromCivil t.year t.month t.day + 3).emod 7

example : (PyDateTime.mk 2025 1 1 0 0 0).weekday = 2 := by decide

/-- Number of days in a month (proleptic Gregorian). -/
def daysInMonth (y m : Int) : Int :=
  if m = 2 then
    if y.emod 4 = 0 ∧ (y.emod 100 ≠ 0 ∨ y.emod 400 = 0) then 29 else 28
  else if m = 4 ∨ m = 6 ∨ m = 9 ∨ m = 11 then 30
  else 31

/-- `datetime.strptime(s, "%d-%m-%Y")`: day and month of one or two digits,
year of exactly four digits, hyphen separators, whole-string match, and
calendar validity (Python raises `ValueError` otherwise, modelled as `none`).
The result is at midnight. -/
def strptimeDMY (s : String) : Option PyDateTime :=
  match s.data.splitOn '-' with
  | [ds, ms, ys] =>
    if 1 ≤ ds.length ∧ ds.length ≤ 2 ∧ 1 ≤ ms.length ∧ ms.length ≤ 2 ∧ ys.length = 4 then
      match digitsToNat ds, digitsToNat ms, digitsToNat ys with
      | some d, some m, some y =>
        if 1 ≤ m ∧ m ≤ 12 ∧ 1 ≤ d ∧ (d : Int) ≤ daysInMonth y m then
          some { year := y, month := m, day := d }
        else none
      | _, _, _ => none
    else none
  | _ => none

/-- `datetime.strptime(s, "%Y-%m-%d")`, analogous to `strptimeDMY`. -/
def strptimeYMD (s : String) : Option PyDateTime :=
  match s.data.splitOn '-' with
  | [ys, ms, ds] =>
    if ys.length = 4 ∧ 1 ≤ ms.length ∧ ms.length ≤ 2 ∧ 1 ≤ ds.length ∧ ds.length ≤ 2 then
      match digitsToNat ds, digitsToNat ms, digitsToNat ys with
      | some d, some m, some y =>
        if 1 ≤ m ∧ m ≤ 12 ∧ 1 ≤ d ∧ (d : Int) ≤ daysInMonth y m then
          some { year := y, month := m, day := d }
        else none
      | _, _, _ => none
    else none
  | _ => none

example : strptimeDMY "01-01-2025" = some (PyDateTime.mk 2025 1 1 0 0 0) := by decide
example : strptimeDMY "garbage" = none := by decide
example : strptimeDMY "2025-01-01" = none := by decide
example : strptimeDMY "30-02-2025" = none := by decide
example : strptimeYMD "2025-01-31" = some (PyDateTime.mk 2025 1 31 0 0 0) := by decide

/-- Decimal digits of `n`, zero-padded on the left to width `w`. -/
def padNat (n : Nat) (w : Nat) : String :=
  let ds := Nat.toDigits 10 n
  ⟨List.replicate (w - ds.length) '0' ++ ds⟩

/-- `strftime("%Y-%m")`: the monthly period key. -/
def fmtYM (t : PyDateTime) : String :=
  padNat t.year.toNat 4 ++ "-" ++ padNat t.month.toNat 2

/-- `strftime("%Y-W%U")`: the weekly period key; `%U` counts weeks with
Sunday as the first day, days before the first Sunday being week 0. -/
def fmtYW (t : PyDateTime) : String :=
  let yday := daysFromCivil t.year t.month t.day - daysFromCivil t.year 1 1
  let wdaySun := (t.weekday + 1).emod 7
  padNat t.year.toNat 4 ++ "-W" ++ padNat ((yday + 7 - wdaySun).fdiv 7).toNat 2

example : fmtYM (PyDateTime.mk 2025 1 15 0 0 0) = "2025-01" := by decide
example : fmtYW (PyDateTime.mk 2025 1 15 0 0 0) = "2025-W02" := by decide

/-! ## Fuzzy matching: `fuzz.ratio` and `fuzz.token_set_ratio`
(fuzzywuzzy on its pure-Python backend, i.e. `difflib.SequenceMatcher`). -/

/-- Length of the longest common prefix of two character lists. -/
def commonPrefixLen : List Char → List Char → Nat
  | a :: as, b :: bs => if a = b then commonPrefixLen as bs + 1 else 0
  | _, _ => 0

/-- `SequenceMatcher.find_longest_match` over whole sequences (no junk):
the `(i, j, k)` with maximal `k` such that `a[i:i+k] == b[j:j+k]`, ties
broken by smallest `i`, then smallest `j`. -/
def bestBlock (a b : List Char) : Nat × Nat × Nat :=
  let cands := (List.range (a.length + 1)).flatMap fun i =>
    (List.range (b.length + 1)).map fun j =>
      (i, j, commonPrefixLen (a.drop i) (b.drop j))
  cands.foldl (fun best c => if best.2.2 < c.2.2 then c else best) (0, 0, 0)

/-- Total size of all matching blocks of `SequenceMatcher` (recursing on both
sides of the longest match).  `fuel` bounds the recursion depth; any value at
least `a.length + b.length` is exact. -/
def matchTotal : Nat → List Char → List Char → Nat
  | 0, _, _ => 0
  | fuel + 1, a, b =>
    let (i, j, k) := bestBlock a b
    if k = 0 then 0
    else
      k + matchTotal fuel (a.take i) (b.take j)
        + matchTotal fuel (a.drop (i + k)) (b.drop (j + k))

/-- `fuzz.ratio`: `int(round(100 * 2M/T))` over the `SequenceMatcher` match
total `M` and combined length `T`; fuzzywuzzy returns 0 when either string is
empty. -/
def fuzz_ratio (s1 s2 : String) : Int :=
  let a := s1.data
  let b := s2.data
  if a.length = 0 ∨ b.length = 0 then 0
  else
    let m := matchTotal (a.length + b.length) a b
    pyRound (100 * (2 * (m : ℚ)) / ((a.length : ℚ) + (b.length : ℚ)))

example : fuzz_ratio "milk" "milk" = 100 := by decide
example : fuzz_ratio "walmart" "mart wal" = 53 := by decide
example : fuzz_ratio "" "walmart" = 0 := by decide

/-- fuzzywuzzy `utils.full_process`: replace every character that is not
ASCII-alphanumeric or underscore by a space, lower-case, strip. -/
def fullProcess (s : String) : String :=
  let keep (c : Char) : Bool := c.isAlphanum || c = '_'
  ⟨pyStripL (pyLowerL (s.data.map fun c => if keep c then c else ' '))⟩

example : fullProcess "WAL-MART" = "wal mart" := by decide

/-- Lexicographic code-point comparison of strings (Python `<=`). -/
def strLeB (a b : String) : Bool :=
  let rec go : List Char → List Char → Bool
    | [], _ => true
    | _ :: _, [] => false
    | x :: xs, y :: ys => if x = y then go xs ys else decide (x < y)
  go a.data b.data

/-- Python `sorted` on strings (keys here are distinct, so stability is
irrelevant). -/
def pySortStr (l : List String) : List String :=
  l.insertionSort (fun a b => strLeB a b)

/-- Python `" ".join`. -/
def joinSpace (l : List String) : String :=
  match l with
  | [] => ""
  | x :: xs => xs.foldl (fun acc s => acc ++ " " ++ s) x

/-- `fuzz.token_set_ratio` (fuzzywuzzy `_token_set` with `partial=False`):
process both strings, split into token sets, and take the best plain ratio
among (intersection, intersection+diff1), (intersection, intersection+diff2),
(intersection+diff1, intersection+diff2). -/
def token_set_ratio (s1 s2 : String) : Int :=
  let p1 := fullProcess s1
  let p2 := fullProcess s2
  if p1.data.length = 0 ∨ p2.data.length = 0 then 0
  else
    let tokens1 := (pyWordsL p1.data).map (fun w => (⟨w⟩ : String)) |>.eraseDups
    let tokens2 := (pyWordsL p2.data).map (fun w => (⟨w⟩ : String)) |>.eraseDups
    let inter := tokens1.filter (fun t => tokens2.contains t)
    let diff1to2 := tokens1.filter (fun t => !tokens2.contains t)
    let diff2to1 := tokens2.filter (fun t => !tokens1.contains t)
    let sortedSect := joinSpace (pySortStr inter)
    let sorted1to2 := joinSpace (pySortStr diff1to2)
    let sorted2to1 := joinSpace (pySortStr diff2to1)
    let combined1to2 := pyStrip (sortedSect ++ " " ++ sorted1to2)
    let combined2to1 := pyStrip (sortedSect ++ " " ++ sorted2to1)
    let sect := pyStrip sortedSect
    max (fuzz_ratio sect combined1to2)
      (max (fuzz_ratio sect combined2to1) (fuzz_ratio combined1to2 combined2to1))

example : token_set_ratio "walmart" "wal-mart" = 53 := by decide
example : token_set_ratio "walmart" "walmart" = 100 := by decide

/-! ## Ledger rows and the duplicate detector
(`SheetsService.find_duplicate_receipts`, sheets_service.py:163-396).
`get_all_records` values are modelled as strings; numeric cells behave the
same under `float(...)`/`pd.to_numeric`.  A `Grand Total` or `Total Price`
cell that does not parse becomes `NaN` under `pd.to_numeric(errors='coerce')`
and is modelled as `none`: a `NaN` grand total still forms a group (`NaN` is
truthy and `NaN == 0` is `False`), all such rows of one date/merchant share
the `"nan"` format key, and the later `amount_diff > 0.01` rejection never
fires for it because every comparison against `NaN` is `False`. -/

/-- One row of the `Receipts` worksheet. -/
structure LedgerRow where
  date : String
  merchant : String
  address : String
  item : String
  category : String
  qty : String
  unitPrice : String
  totalPrice : String
  tax : String
  grandTotal : String
  payment : String
deriving DecidableEq, Repr, Inhabited

/-- One line item of an in-flight `Receipt`. -/
structure LineItem where
  item_name : String
  price : ℚ
deriving DecidableEq, Repr

/-- The in-flight candidate `Receipt` (only the fields the detector reads). -/
structure CandReceipt where
  purchase_date : String
  merchant_name : String
  total : ℚ
  line_items : List LineItem
deriving DecidableEq, Repr

/-- One reconstructed item of a receipt group (`none` is a `NaN` price from
a non-numeric `Total Price` cell; prices play no part in matching). -/
structure GroupItem where
  item : String
  category : String
  qty : String
  unitPrice : String
  totalPrice : Option ℚ
deriving DecidableEq, Repr

/-- A reconstructed receipt group (one entry of `receipt_groups`).
`grandTotal = none` models a `NaN` grand total. -/
structure ReceiptGroup where
  date : String
  merchant : String
  address : String
  grandTotal : Option ℚ
  tax : String
  payment : String
  items : List GroupItem
  merchantScore : Int
deriving DecidableEq, Repr

/-- The detector's local `parse_date`: `%d-%m-%Y`, then `%Y-%m-%d`, else none. -/
def parse_date (s : String) : Option PyDateTime :=
  match strptimeDMY s with
  | some d => some d
  | none => strptimeYMD s

/-- The pandas-normalized merchant column: `.str.lower().str.strip()`. -/
def rowMerchant (r : LedgerRow) : String := pyStrip (pyLower r.merchant)

/-- Rows surviving the merchant-similarity and date-proximity filters
(`df_match`).  An unparseable candidate date yields no survivors (the
function short-circuits to `[]`). -/
def survivors (receipt : CandReceipt) (rows : List LedgerRow)
    (threshold_days : Int) (fuzzy_threshold : Int) : List LedgerRow :=
  match strptimeDMY receipt.purchase_date with
  | none => []
  | some receipt_date =>
    let merchant_name := pyStrip (pyLower receipt.merchant_name)
    rows.filter fun r =>
      fuzzy_threshold ≤ token_set_ratio (rowMerchant r) merchant_name
      && (match parse_date r.date with
          | none => false
          | some d => |PyDateTime.diffDays receipt_date d| ≤ threshold_days)

/-- Insert into the ordered group map: extend the items of the group with
this key if present, else append a fresh group at the end (Python dict
insertion order). -/
def insertGroup (key : String × String × Option ℚ) (fresh : ReceiptGroup)
    (addItem : List GroupItem) :
    List ((String × String × Option ℚ) × ReceiptGroup) →
      List ((String × String × Option ℚ) × ReceiptGroup)
  | [] => [(key, { fresh with items := addItem })]
  | (k, g) :: rest =>
    if k = key then (k, { g with items := g.items ++ addItem }) :: rest
    else (k, g) :: insertGroup key fresh addItem rest

/-- Add one row to the ordered group map (`receipt_groups`); the key is
(raw date string, normalized merchant, grand total formatted to 2 decimals,
with every `NaN` formatting to the same `"nan"`, modelled as `none`).  Only
a grand total equal to exactly 0 skips the row; a `NaN` one (non-numeric
cell) does not, since `NaN == 0` is `False`.  `merchant_name` is the
candidate's normalized merchant (used for the stored `merchant_score`). -/
def addToGroups (merchant_name : String)
    (groups : List ((String × String × Option ℚ) × ReceiptGroup))
    (r : LedgerRow) : List ((String × String × Option ℚ) × ReceiptGroup) :=
  let grand_total := pyFloat r.grandTotal
  if grand_total = some 0 then groups
  else
    let key := (r.date, rowMerchant r, grand_total.map pyRound2)
    let item_name := pyStrip r.item
    let keepItem := item_name ≠ "" ∧ pyUpper item_name ≠ "TOTAL"
    let newItem : GroupItem :=
      { item := item_name, category := r.category, qty := r.qty,
        unitPrice := r.unitPrice, totalPrice := pyFloat r.totalPrice }
    insertGroup key
      { date := r.date, merchant := rowMerchant r, address := r.address,
        grandTotal := grand_total, tax := r.tax, payment := r.payment,
        items := [],
        merchantScore := token_set_ratio (rowMerchant r) merchant_name }
      (if keepItem then [newItem] else []) groups

/-- `normalize_item_name`: lower-case, strip, collapse whitespace runs
(including `\n\r\t`) to single spaces. -/
def normalize_item_name (s : String) : String :=
  ⟨collapseWSL (pyStripL (pyLowerL s.data))⟩

example : normalize_item_name "  Milk \n  2%  " = "milk 2%" := by decide

/-- The reconstructed receipt groups of the detector: fold the matched rows
into the ordered group map and keep the groups in insertion order. -/
def receiptGroups (merchant_name : String) (rows : List LedgerRow) :
    List ReceiptGroup :=
  (rows.foldl (addToGroups merchant_name) []).map Prod.snd

/-- `matched_count`: each candidate item counts once when its normalized name
reaches a plain ratio of at least 85 against some group item (with `break`,
so at most once per candidate item; one group item may serve several). -/
def matchedCount (receipt : CandReceipt) (g : ReceiptGroup) : Nat :=
  (receipt.line_items.filter fun it =>
    g.items.any fun m =>
      85 ≤ fuzz_ratio (normalize_item_name it.item_name) (normalize_item_name m.item)).length

/-- The detector's per-group match percentage. -/
def matchPercentage (receipt : CandReceipt) (g : ReceiptGroup) : ℚ :=
  let total_items := max receipt.line_items.length g.items.length
  if 0 < total_items then (matchedCount receipt g : ℚ) / (total_items : ℚ) * 100
  else 0

/-- The duplicate decision for one group: `amount_diff > 0.01` rejects the
group, except that a `NaN` grand total is never rejected by it (in Python
`abs(total - NaN) > 0.01` is `False`); then at least 70% of the candidate's
items must match. -/
def isDuplicateGroup (receipt : CandReceipt) (g : ReceiptGroup) : Bool :=
  match g.grandTotal with
  | none => 70 ≤ matchPercentage receipt g
  | some gt =>
    if 1/100 < |receipt.total - gt| then false
    else 70 ≤ matchPercentage receipt g

/-- The duplicate summary dict returned per qualifying group.  The `Category`
field joins the distinct item categories (Python iterates a `set`; modelled
in insertion order). -/
structure DuplicateSummary where
  date : String
  merchant : String
  address : String
  grandTotal : Option ℚ
  tax : String
  payment : String
  itemCountLabel : String
  categoryLabel : String
  match_type : String
  match_percentage : ℚ
  merchant_score : Int
  items_detail : List GroupItem
deriving DecidableEq, Repr

/-- Python `", ".join`. -/
def joinCommaSpace (l : List String) : String :=
  match l with
  | [] => ""
  | x :: xs => xs.foldl (fun acc s => acc ++ ", " ++ s) x

/-- Build the summary record for a qualifying group. -/
def mkSummary (receipt : CandReceipt) (g : ReceiptGroup) : DuplicateSummary :=
  { date := g.date, merchant := g.merchant, address := g.address,
    grandTotal := g.grandTotal, tax := g.tax, payment := g.payment,
    itemCountLabel := padNat g.items.length 1 ++ " items",
    categoryLabel :=
      joinCommaSpace (((g.items.map (·.category)).filter (· ≠ "")).eraseDups),
    match_type := "fuzzy_match",
    match_percentage := pyRound1 (matchPercentage receipt g),
    merchant_score := g.merchantScore,
    items_detail := g.items }

/-- `SheetsService.find_duplicate_receipts` (sheets_service.py:163-396):
filter rows by fuzzy merchant match and date proximity, reconstruct receipt
groups, and report every group whose grand total is within one cent of the
candidate's and whose item match percentage is at least 70. -/
def find_duplicate_receipts (receipt : CandReceipt) (rows : List LedgerRow)
    (threshold_days : Int := 1) (fuzzy_threshold : Int := 85) :
    List DuplicateSummary :=
  let merchant_name := pyStrip (pyLower receipt.merchant_name)
  (receiptGroups merchant_name
      (survivors receipt rows threshold_days fuzzy_threshold)).filterMap
    fun g => if isDuplicateGroup receipt g then some (mkSummary receipt g) else none

/-- Ledger rows of the spec's duplicate-detection scenario: receipt A,
date 01-01-2025, merchant "Walmart", items Milk 3.50 and Bread 2.00,
grand total 5.50. -/
def scenarioLedger : List LedgerRow :=
  [ { date := "01-01-2025", merchant := "Walmart", address := "", item := "Milk",
      category := "Groceries", qty := "1", unitPrice := "3.50",
      totalPrice := "3.50", tax := "", grandTotal := "5.50", payment := "card" },
    { date := "01-01-2025", merchant := "Walmart", address := "", item := "Bread",
      category := "Groceries", qty := "1", unitPrice := "2.00",
      totalPrice := "2.00", tax := "", grandTotal := "5.50", payment := "card" } ]

/-- The spec scenario's candidate: date 01-01-2025, merchant "WAL-MART",
items milk 3.50 and bread 2.00, total 5.50. -/
def scenarioCandidate : CandReceipt :=
  { purchase_date := "01-01-2025", merchant_name := "WAL-MART", total := 55/10,
    line_items := [ { item_name := "milk", price := 35/10 },
                    { item_name := "bread", price := 2 } ] }

example : find_duplicate_receipts scenarioCandidate scenarioLedger 1 85 = [] := by decide

/-! ## Association-list toolkit for the `defaultdict` folds -/

/-- `defaultdict(float)` increment: add `v` at the first occurrence of `k`,
or append `(k, v)`. -/
def bump (k : String) (v : ℚ) : List (String × ℚ) → List (String × ℚ)
  | [] => [(k, v)]
  | (k0, v0) :: rest =>
    if k0 = k then (k0, v0 + v) :: rest else (k0, v0) :: bump k v rest

/-- Nested `defaultdict(lambda: defaultdict(float))` increment. -/
def bumpNested (c k : String) (v : ℚ) :
    List (String × List (String × ℚ)) → List (String × List (String × ℚ))
  | [] => [(c, [(k, v)])]
  | (c0, m) :: rest =>
    if c0 = c then (c0, bump k v m) :: rest else (c0, m) :: bumpNested c k v rest

/-- Sum of the values stored at key `k` (equals the stored value when keys
are unique). -/
def keySum (m : List (String × ℚ)) (k : String) : ℚ :=
  ((m.filter fun p => p.1 = k).map Prod.snd).sum

/-- `keySum` across all inner maps of a nested map. -/
def nestedKeySum (nd : List (String × List (String × ℚ))) (k : String) : ℚ :=
  (nd.map fun p => keySum p.2 k).sum

theorem keySum_nil (k : String) : keySum [] k = 0 := rfl

theorem keySum_cons (k0 : String) (v0 : ℚ) (rest : List (String × ℚ))
    (k' : String) :
    keySum ((k0, v0) :: rest) k' = (if k0 = k' then v0 else 0) + keySum rest k' := by
  by_cases h : k0 = k' <;> simp [keySum, List.filter_cons, h]

theorem bump_cons_eq {k0 k : String} (h : k0 = k) (v0 v : ℚ)
    (rest : List (String × ℚ)) :
    bump k v ((k0, v0) :: rest) = (k0, v0 + v) :: rest := by
  simp [bump, h]

theorem bump_cons_ne {k0 k : String} (h : ¬k0 = k) (v0 v : ℚ)
    (rest : List (String × ℚ)) :
    bump k v ((k0, v0) :: rest) = (k0, v0) :: bump k v rest := by
  simp [bump, h]

theorem keySum_bump (m : List (String × ℚ)) (k k' : String) (v : ℚ) :
    keySum (bump k v m) k' = keySum m k' + if k' = k then v else 0 := by
  induction m with
  | nil =>
    show keySum [(k, v)] k' = keySum [] k' + if k' = k then v else 0
    by_cases h : k' = k
    · subst h; simp [keySum_cons, keySum_nil]
    · have h2 : ¬k = k' := fun hh => h hh.symm
      simp [keySum_cons, keySum_nil, h, h2]
  | cons p rest ih =>
    obtain ⟨k0, v0⟩ := p
    by_cases h0 : k0 = k
    · rw [bump_cons_eq h0, keySum_cons, keySum_cons]
      subst h0
      by_cases h' : k0 = k'
      · subst h'
        simp only [if_pos rfl, if_true]
        ring
      · have h'' : ¬k' = k0 := fun hh => h' hh.symm
        simp only [if_neg h', if_neg h'']
        ring
    · rw [bump_cons_ne h0, keySum_cons, keySum_cons, ih]
      ring

theorem nestedKeySum_cons (c0 : String) (m : List (String × ℚ))
    (rest : List (String × List (String × ℚ))) (k : String) :
    nestedKeySum ((c0, m) :: rest) k = keySum m k + nestedKeySum rest k := by
  simp [nestedKeySum]

theorem nestedKeySum_nil (k : String) : nestedKeySum [] k = 0 := rfl

theorem bumpNested_cons_eq {c0 c : String} (h : c0 = c) (k : String) (v : ℚ)
    (m : List (String × ℚ)) (rest : List (String × List (String × ℚ))) :
    bumpNested c k v ((c0, m) :: rest) = (c0, bump k v m) :: rest := by
  simp [bumpNested, h]

theorem bumpNested_cons_ne {c0 c : String} (h : ¬c0 = c) (k : String) (v : ℚ)
    (m : List (String × ℚ)) (rest : List (String × List (String × ℚ))) :
    bumpNested c k v ((c0, m) :: rest) = (c0, m) :: bumpNested c k v rest := by
  simp [bumpNested, h]

theorem nestedKeySum_bumpNested (nd : List (String × List (String × ℚ)))
    (c k k' : String) (v : ℚ) :
    nestedKeySum (bumpNested c k v nd) k' =
      nestedKeySum nd k' + if k' = k then v else 0 := by
  induction nd with
  | nil =>
    show nestedKeySum [(c, [(k, v)])] k' = nestedKeySum [] k' + if k' = k then v else 0
    by_cases h : k' = k
    · subst h
      simp [nestedKeySum_cons, nestedKeySum_nil, keySum_cons, keySum_nil]
    · have h2 : ¬k = k' := fun hh => h hh.symm
      simp [nestedKeySum_cons, nestedKeySum_nil, keySum_cons, keySum_nil, h, h2]
  | cons p rest ih =>
    obtain ⟨c0, m⟩ := p
    by_cases h0 : c0 = c
    · rw [bumpNested_cons_eq h0, nestedKeySum_cons, nestedKeySum_cons, keySum_bump]
      ring
    · rw [bumpNested_cons_ne h0, nestedKeySum_cons, nestedKeySum_cons, ih]
      ring

/-- `bump` preserves positivity of all stored values. -/
theorem bump_pos {m : List (String × ℚ)} {k : String} {v : ℚ}
    (hm : ∀ p ∈ m, 0 < p.2) (hv : 0 < v) : ∀ p ∈ bump k v m, 0 < p.2 := by
  induction m with
  | nil => simpa [bump] using hv
  | cons q rest ih =>
    obtain ⟨k0, v0⟩ := q
    simp only [bump]
    by_cases h0 : k0 = k
    · subst h0
      simp only [if_pos rfl]
      intro p hp
      rcases List.mem_cons.1 hp with h | h
      · subst h
        have hv0 := hm (k0, v0) (by simp)
        simp only at hv0 ⊢
        positivity
      · exact hm p (List.mem_cons_of_mem _ h)
    · simp only [if_neg h0]
      intro p hp
      rcases List.mem_cons.1 hp with h | h
      · subst h
        exact hm (k0, v0) (by simp)
      · exact ih (fun q hq => hm q (List.mem_cons_of_mem _ hq)) p h

/-- The keys of `bump k v m`: unchanged when `k` is already a key, else `k`
is appended. -/
theorem bump_keys (m : List (String × ℚ)) (k : String) (v : ℚ) :
    (bump k v m).map Prod.fst =
      if k ∈ m.map Prod.fst then m.map Prod.fst else m.map Prod.fst ++ [k] := by
  induction m with
  | nil => simp [bump]
  | cons p rest ih =>
    obtain ⟨k0, v0⟩ := p
    by_cases h0 : k0 = k
    · subst h0
      simp [bump]
    · simp only [bump, if_neg h0, List.map_cons, ih]
      have hne : ¬k = k0 := fun hh => h0 hh.symm
      by_cases hk : k ∈ rest.map Prod.fst <;>
        simp [hk, List.mem_cons, hne]

/-- `bump` keeps the key list duplicate-free. -/
theorem bump_nodup {m : List (String × ℚ)} {k : String} {v : ℚ}
    (h : (m.map Prod.fst).Nodup) : ((bump k v m).map Prod.fst).Nodup := by
  rw [bump_keys]
  by_cases hk : k ∈ m.map Prod.fst
  · simpa [hk]
  · simpa [hk] using List.Nodup.append h (by simp) (by simpa using hk)

/-! ## `AnalysisService` (analysis_service.py): trends -/

/-- `AnalysisService._parse_date` (analysis_service.py:26-35): `%d-%m-%Y`,
then `%Y-%m-%d`, then **fall back to `datetime.now()`** (never raises). -/
def analysis_parse_date (s : String) (now : PyDateTime) : PyDateTime :=
  match strptimeDMY s with
  | some d => d
  | none =>
    match strptimeYMD s with
    | some d => d
    | none => now

/-- The date-filter window shared verbatim by `get_trends` and
`get_category_analysis` (analysis_service.py:68-92 and 291-315). -/
def dateFilterRange (date_filter : Option String)
    (start_date end_date : Option String) (now : PyDateTime) :
    Option PyDateTime × Option PyDateTime :=
  if date_filter = some "last_7" then (some (now.subDays 7), none)
  else if date_filter = some "last_30" then (some (now.subDays 30), none)
  else if date_filter = some "last_90" then (some (now.subDays 90), none)
  else if date_filter = some "this_month" then
    (some { now with day := 1, hour := 0, minute := 0, second := 0 }, none)
  else if date_filter = some "last_month" then
    let first_of_this_month : PyDateTime := { now with day := 1 }
    let filter_end := first_of_this_month.subDays 1
    (some { filter_end with day := 1 }, some filter_end)
  else if date_filter = some "this_year" then
    (some { now with month := 1, day := 1, hour := 0, minute := 0, second := 0 }, none)
  else if date_filter = some "custom" then
    match start_date with
    | none => (none, none)
    | some sd =>
      match strptimeYMD sd with
      | none => (none, none)
      | some fs =>
        match end_date with
        | none => (some fs, none)
        | some ed => (some fs, strptimeYMD ed)
  else (none, none)

/-- One point of a trend time series. -/
structure TimeSeriesPoint where
  date : String
  amount : ℚ
  category : Option String := none
deriving DecidableEq, Repr

/-- The `TrendData` result record. -/
structure TrendData where
  period : String
  categories : List String
  data : List (String × List TimeSeriesPoint)
  total_by_period : List TimeSeriesPoint
deriving DecidableEq, Repr

/-- Accumulator of the `get_trends` row loop: the category set in insertion
order, `category_data`, and `total_by_period`. -/
structure TrendState where
  cats : List String
  catData : List (String × List (String × ℚ))
  totals : List (String × ℚ)
deriving Repr

/-- Whether a row passes the window and has a usable positive amount, and if
so its category, period key and amount (the body of the `get_trends` loop;
`ValueError` on the amount is caught and skips the row). -/
def trendRowInfo (period : String) (fs fe : Option PyDateTime)
    (now : PyDateTime) (r : LedgerRow) : Option (String × String × ℚ) :=
  let date := analysis_parse_date r.date now
  if (match fs with | some s => date.lt s | none => false) then none
  else if (match fe with | some e => e.lt date | none => false) then none
  else if pyStrip r.totalPrice = "" then none
  else
    match pyFloat r.totalPrice with
    | none => none
    | some amount =>
      if amount ≤ 0 then none
      else
        let pk := if period = "monthly" then fmtYM date else fmtYW date
        some (r.category, pk, amount)

/-- One step of the `get_trends` row loop. -/
def trendStep (period : String) (fs fe : Option PyDateTime) (now : PyDateTime)
    (st : TrendState) (r : LedgerRow) : TrendState :=
  match trendRowInfo period fs fe now r with
  | none => st
  | some (category, pk, amount) =>
    { cats := if st.cats.contains category then st.cats else st.cats ++ [category],
      catData := bumpNested category pk amount st.catData,
      totals := bump pk amount st.totals }

/-- `sorted(d.items())`: keys are unique, so sorting by key matches Python's
tuple order. -/
def sortedItems (m : List (String × ℚ)) : List (String × ℚ) :=
  m.insertionSort (fun a b => strLeB a.1 b.1)

/-- Inner map of a nested map (`category_data[category]`). -/
def lookupNested (nd : List (String × List (String × ℚ))) (c : String) :
    List (String × ℚ) :=
  ((nd.find? fun p => p.1 = c).map Prod.snd).getD []

/-- Time series of one sorted map. -/
def seriesOf (c : Option String) (m : List (String × ℚ)) : List TimeSeriesPoint :=
  (sortedItems m).map fun p => { date := p.1, amount := p.2, category := c }

/-- `AnalysisService.get_trends` (analysis_service.py:37-154). -/
def get_trends (receipts : List LedgerRow) (period : String)
    (date_filter : Option String) (start_date end_date : Option String)
    (now : PyDateTime) : TrendData :=
  if receipts.isEmpty then
    { period := period, categories := [], data := [], total_by_period := [] }
  else
    let fsfe := dateFilterRange date_filter start_date end_date now
    let st := receipts.foldl (trendStep period fsfe.1 fsfe.2 now) ⟨[], [], []⟩
    { period := period,
      categories := st.cats,
      data := st.cats.map fun c => (c, seriesOf (some c) (lookupNested st.catData c)),
      total_by_period := seriesOf none st.totals }

example :
    (get_trends
      [ { date := "15-01-2025", merchant := "A", address := "", item := "x",
          category := "Dining", qty := "", unitPrice := "", totalPrice := "10",
          tax := "", grandTotal := "30", payment := "" },
        { date := "20-01-2025", merchant := "A", address := "", item := "y",
          category := "Dining", qty := "", unitPrice := "", totalPrice := "20",
          tax := "", grandTotal := "30", payment := "" } ]
      "monthly" none none none (PyDateTime.mk 2025 2 1 12 0 0)).total_by_period
    = [{ date := "2025-01", amount := 30, category := none }] := by decide

/-! ## `AnalysisService.get_forecast` (analysis_service.py:156-254) -/

/-- `CategorySpending` result record. -/
structure CategorySpending where
  category : String
  total : ℚ
  percentage : ℚ
  count : Nat
  average : ℚ
deriving DecidableEq, Repr

/-- `ForecastData` result record. -/
structure ForecastData where
  period : String
  forecasts : List CategorySpending
  total_forecast : ℚ
  confidence : ℚ
  based_on_months : Nat
deriving DecidableEq, Repr

/-- Rows whose (parsed-or-defaulted) date is within the trailing 90 days
(`recent_receipts`). -/
def recentReceipts (receipts : List LedgerRow) (now : PyDateTime) :
    List LedgerRow :=
  receipts.filter fun r => (now.subDays 90).le (analysis_parse_date r.date now)

/-- The amount of a row if it is non-empty, numeric and positive (the checks
of the forecast accumulation loop). -/
def forecastAmountOk (r : LedgerRow) : Option ℚ :=
  if pyStrip r.totalPrice = "" then none
  else
    match pyFloat r.totalPrice with
    | none => none
    | some a => if a ≤ 0 then none else some a

/-- `defaultdict` increment with a pair key (`category_totals`). -/
def bumpP (k : String × String) (v : ℚ) :
    List ((String × String) × ℚ) → List ((String × String) × ℚ)
  | [] => [(k, v)]
  | (k0, v0) :: rest =>
    if k0 = k then (k0, v0 + v) :: rest else (k0, v0) :: bumpP k v rest

/-- One step of the forecast's `(category, month)` accumulation. -/
def forecastStep (now : PyDateTime) (m : List ((String × String) × ℚ))
    (r : LedgerRow) : List ((String × String) × ℚ) :=
  match forecastAmountOk r with
  | none => m
  | some a =>
    let date := analysis_parse_date r.date now
    bumpP (r.category, fmtYM date) a m

/-- Append one amount to a category's list (`category_forecasts`, a dict of
lists in insertion order). -/
def appendAmount (c : String) (a : ℚ) :
    List (String × List ℚ) → List (String × List ℚ)
  | [] => [(c, [a])]
  | (c0, l) :: rest =>
    if c0 = c then (c0, l ++ [a]) :: rest else (c0, l) :: appendAmount c a rest

/-- Regroup the `(category, month)` totals per category. -/
def groupAmounts (m : List ((String × String) × ℚ)) : List (String × List ℚ) :=
  m.foldl (fun acc p => appendAmount p.1.1 p.2 acc) []

/-- `AnalysisService.get_forecast` (analysis_service.py:156-254): moving
average of the per-month category totals over the trailing 90 days. -/
def get_forecast (receipts : List LedgerRow) (now : PyDateTime) : ForecastData :=
  if receipts.isEmpty then
    { period := "next_month", forecasts := [], total_forecast := 0,
      confidence := 0, based_on_months := 0 }
  else
    let recent := recentReceipts receipts now
    if recent.isEmpty then
      { period := "next_month", forecasts := [], total_forecast := 0,
        confidence := 0, based_on_months := 0 }
    else
      let category_totals := recent.foldl (forecastStep now) []
      let category_forecasts := groupAmounts category_totals
      let prelim := category_forecasts.map fun p =>
        let avg := p.2.sum / (p.2.length : ℚ)
        ({ category := p.1, total := avg, percentage := 0,
           count := p.2.length, average := avg } : CategorySpending)
      let total_forecast := (prelim.map (·.total)).sum
      { period := "next_month",
        forecasts := prelim.map fun f =>
          { f with percentage :=
              if 0 < total_forecast then f.total / total_forecast * 100 else 0 },
        total_forecast := total_forecast,
        confidence := if 0 < category_forecasts.length then 7/10 else 0,
        based_on_months := 3 }

example :
    (get_forecast [] (PyDateTime.mk 2025 2 1 12 0 0)).based_on_months = 0 := by decide
example :
    (get_forecast
      [ { date := "15-01-2025", merchant := "A", address := "", item := "x",
          category := "Groceries", qty := "", unitPrice := "", totalPrice := "100",
          tax := "", grandTotal := "", payment := "" },
        { date := "15-12-2024", merchant := "A", address := "", item := "x",
          category := "Groceries", qty := "", unitPrice := "", totalPrice := "150",
          tax := "", grandTotal := "", payment := "" },
        { date := "15-11-2024", merchant := "A", address := "", item := "x",
          category := "Groceries", qty := "", unitPrice := "", totalPrice := "50",
          tax := "", grandTotal := "", payment := "" } ]
      (PyDateTime.mk 2025 2 1 12 0 0)).forecasts.map (·.average) = [100] := by decide

/-! ## `AnalysisService.get_category_analysis` (analysis_service.py:256-401) -/

/-- `CategoryAnalysis` result record. -/
structure CategoryAnalysis where
  categories : List CategorySpending
  total_spending : ℚ
  top_category : String
  period : String
deriving DecidableEq, Repr

/-- The first-pass filter (`filtered_receipts`): date window, category
allow-list (an empty list means no filtering, like Python's falsy `None`/
`[]`), and amount bounds.  A non-numeric amount raises and the row is
dropped by the surrounding `except`. -/
def passesCategoryFilter (fs fe : Option PyDateTime) (catFilter : List String)
    (min_amount max_amount : Option ℚ) (now : PyDateTime) (r : LedgerRow) : Bool :=
  let receipt_date := analysis_parse_date r.date now
  if pyStrip r.totalPrice = "" then false
  else
    match pyFloat r.totalPrice with
    | none => false
    | some amount =>
      !(match fs with | some s => receipt_date.lt s | none => false)
      && !(match fe with | some e => e.lt receipt_date | none => false)
      && !(!catFilter.isEmpty && !catFilter.contains r.category)
      && !(match min_amount with | some m => decide (amount < m) | none => false)
      && !(match max_amount with | some m => decide (m < amount) | none => false)

/-- `category_data` increment: add to the total and count of a category. -/
def bump2 (k : String) (v : ℚ) :
    List (String × ℚ × Nat) → List (String × ℚ × Nat)
  | [] => [(k, (v, 1))]
  | (k0, tn) :: rest =>
    if k0 = k then (k0, (tn.1 + v, tn.2 + 1)) :: rest
    else (k0, tn) :: bump2 k v rest

/-- One step of the second (aggregation) loop of `get_category_analysis`:
state is (`category_data`, `total_spending`). -/
def categoryAggStep (st : List (String × ℚ × Nat) × ℚ) (r : LedgerRow) :
    List (String × ℚ × Nat) × ℚ :=
  if pyStrip r.totalPrice = "" then st
  else
    match pyFloat r.totalPrice with
    | none => st
    | some amount =>
      if amount ≤ 0 then st
      else (bump2 r.category amount st.1, st.2 + amount)

/-- `AnalysisService.get_category_analysis` (analysis_service.py:256-401). -/
def get_category_analysis (receipts : List LedgerRow) (period : String)
    (start_date end_date : Option String) (catFilter : List String)
    (min_amount max_amount : Option ℚ) (now : PyDateTime) : CategoryAnalysis :=
  if receipts.isEmpty then
    { categories := [], total_spending := 0, top_category := "None",
      period := period }
  else
    let fsfe := dateFilterRange (some period) start_date end_date now
    let filtered := receipts.filter
      (passesCategoryFilter fsfe.1 fsfe.2 catFilter min_amount max_amount now)
    if filtered.isEmpty then
      { categories := [], total_spending := 0, top_category := "None",
        period := period }
    else
      let st := filtered.foldl categoryAggStep ([], 0)
      let total_spending := st.2
      let cats := st.1.map fun p =>
        ({ category := p.1, total := p.2.1,
           percentage :=
             if 0 < total_spending then p.2.1 / total_spending * 100 else 0,
           count := p.2.2,
           average := if 0 < p.2.2 then p.2.1 / (p.2.2 : ℚ) else 0 } :
          CategorySpending)
      let sorted := cats.insertionSort (fun a b => b.total ≤ a.total)
      { categories := sorted,
        total_spending := total_spending,
        top_category := (sorted.head?.map (·.category)).getD "None",
        period := period }

example :
    (get_category_analysis
      [ { date := "15-01-2025", merchant := "A", address := "", item := "x",
          category := "Dining", qty := "", unitPrice := "", totalPrice := "10",
          tax := "", grandTotal := "", payment := "" },
        { date := "20-01-2025", merchant := "A", address := "", item := "y",
          category := "Travel", qty := "", unitPrice := "", totalPrice := "30",
          tax := "", grandTotal := "", payment := "" } ]
      "all" none none [] none none (PyDateTime.mk 2025 2 1 12 0 0)).top_category
    = "Travel" := by decide

/-! ## Budgets: `calculate_budget_spending` (sheets_service.py:610-721),
`_calculate_period_info` (analysis_service.py:465-512) and
`get_budget_status` (analysis_service.py:403-463) -/

/-- `strftime("%b")` month abbreviation. -/
def monthAbbr (m : Int) : String :=
  (["Jan", "Feb", "Mar", "Apr", "May", "Jun", "Jul", "Aug", "Sep", "Oct",
    "Nov", "Dec"].get? (m - 1).toNat).getD ""

/-- `strftime("%b %d")`. -/
def fmtBD (t : PyDateTime) : String :=
  monthAbbr t.month ++ " " ++ padNat t.day.toNat 2

/-- `strftime("%b %d, %Y")`. -/
def fmtBDY (t : PyDateTime) : String :=
  fmtBD t ++ ", " ++ padNat t.year.toNat 4

/-- The budget window of `calculate_budget_spending` (the `range_start`,
`range_end` computation; the two custom dates must be present and non-empty,
otherwise the generic default applies). -/
def budgetRange (period period_type : String)
    (start_date end_date : Option String) (now : PyDateTime) :
    PyDateTime × PyDateTime :=
  if period_type = "rolling" then
    if period = "weekly" then (now.subDays 7, now) else (now.subDays 30, now)
  else if period_type = "calendar_month" then
    let range_start : PyDateTime :=
      { now with day := 1, hour := 0, minute := 0, second := 0 }
    if now.month = 12 then
      let range_end : PyDateTime :=
        { now with month := 12, day := 31, hour := 23, minute := 59, second := 59 }
      (range_start, range_end)
    else
      let next_month : PyDateTime := { now with month := now.month + 1, day := 1 }
      (range_start, next_month.addSec (-1))
  else if period_type = "calendar_week" then
    let start_of_week := now.subDays now.weekday
    ({ start_of_week with hour := 0, minute := 0, second := 0 },
      start_of_week.addSec (6 * 86400 + 23 * 3600 + 59 * 60 + 59))
  else if period_type = "custom" ∧ (∃ s, start_date = some s ∧ s ≠ "")
      ∧ (∃ e, end_date = some e ∧ e ≠ "") then
    match start_date, end_date with
    | some sd, some ed =>
      (match strptimeYMD sd, strptimeYMD ed with
       | some s, some e =>
         (s, { e with hour := 23, minute := 59, second := 59 })
       | _, _ =>
         ({ now with day := 1, hour := 0, minute := 0, second := 0 }, now))
    | _, _ => ({ now with day := 1, hour := 0, minute := 0, second := 0 }, now)
  else ({ now with day := 1, hour := 0, minute := 0, second := 0 }, now)

/-- `SheetsService.calculate_budget_spending`: total of the rows whose
normalized category matches and whose parseable date is in the window. -/
def calculate_budget_spending (receipts : List LedgerRow) (category : String)
    (period : String := "monthly") (period_type : String := "calendar_month")
    (start_date : Option String := none) (end_date : Option String := none)
    (now : PyDateTime := default) : ℚ :=
  let normalized_category := normalize_category category
  let (range_start, range_end) := budgetRange period period_type start_date end_date now
  receipts.foldl
    (fun total r =>
      if normalize_category (pyStrip r.category) ≠ normalized_category then total
      else
        match parse_date r.date with
        | none => total
        | some receipt_date =>
          if range_start.le receipt_date ∧ receipt_date.le range_end then
            match pyFloat r.totalPrice with
            | none => total
            | some amount => total + amount
          else total)
    0

/-- `AnalysisService._calculate_period_info`: the display label and reset
label of a budget period. -/
def calculate_period_info (period_type period : String)
    (start_date end_date : Option String) (now : PyDateTime) : String × String :=
  if period_type = "rolling" then
    if period = "weekly" then
      ("Rolling 7 days (" ++ fmtBD (now.subDays 7) ++ " - " ++ fmtBDY now ++ ")",
        "Daily")
    else
      ("Rolling 30 days (" ++ fmtBD (now.subDays 30) ++ " - " ++ fmtBDY now ++ ")",
        "Daily")
  else if period_type = "calendar_month" then
    let month_start : PyDateTime := { now with day := 1 }
    if now.month = 12 then
      (fmtBD month_start ++ " - " ++ fmtBDY { now with day := 31 },
        fmtBDY { now with year := now.year + 1, month := 1, day := 1 })
    else
      let next_month : PyDateTime := { now with month := now.month + 1, day := 1 }
      (fmtBD month_start ++ " - " ++ fmtBDY (next_month.subDays 1),
        fmtBDY next_month)
  else if period_type = "calendar_week" then
    let start_of_week := now.subDays now.weekday
    (fmtBD start_of_week ++ " - " ++ fmtBDY (start_of_week.addSec (6 * 86400)),
      fmtBDY (start_of_week.addSec (7 * 86400)))
  else if period_type = "custom" ∧ (∃ s, start_date = some s ∧ s ≠ "")
      ∧ (∃ e, end_date = some e ∧ e ≠ "") then
    match start_date, end_date with
    | some sd, some ed =>
      (match strptimeYMD sd, strptimeYMD ed with
       | some s, some e => (fmtBD s ++ " - " ++ fmtBDY e, "Does not reset")
       | _, _ => ("Current month", "Next month"))
    | _, _ => ("Current month", "Next month")
  else ("Current month", "Next month")

/-- One row of the `Budgets` worksheet (all cells as strings). -/
structure BudgetRow where
  id : String
  category : String
  limitStr : String
  period : String
  periodType : String
  startDate : String
  endDate : String
deriving DecidableEq, Repr, Inhabited

/-- A `Budget` result record of `get_budget_status`. -/
structure Budget where
  id : String
  category : String
  limit : ℚ
  period : String
  period_type : String
  start_date : Option String
  end_date : Option String
  current_spend : ℚ
  percentage_used : ℚ
  is_exceeded : Bool
  period_display : String
  resets_on : String
deriving DecidableEq, Repr, Inhabited

/-- `BudgetStatus` result record. -/
structure BudgetStatus where
  budgets : List Budget
  total_budget : ℚ
  total_spent : ℚ
  overall_percentage : ℚ
deriving DecidableEq, Repr, Inhabited

/-- The per-budget record built inside the `get_budget_status` loop. -/
def mkBudget (receipts : List LedgerRow) (now : PyDateTime) (br : BudgetRow)
    (lim : ℚ) : Budget :=
  let sd := if br.startDate = "" then none else some br.startDate
  let ed := if br.endDate = "" then none else some br.endDate
  let current_spend :=
    calculate_budget_spending receipts br.category br.period br.periodType sd ed now
  let info := calculate_period_info br.periodType br.period sd ed now
  { id := br.id, category := br.category, limit := lim, period := br.period,
    period_type := br.periodType, start_date := sd, end_date := ed,
    current_spend := current_spend,
    percentage_used := if 0 < lim then current_spend / lim * 100 else 0,
    is_exceeded := lim < current_spend,
    period_display := info.1, resets_on := info.2 }

/-- The `get_budget_status` loop: `float(budget_row.get("Limit", 0))` is not
guarded, so a non-numeric limit raises `ValueError` out of the function
(modelled as `Except.error`). -/
def buildBudgets (receipts : List LedgerRow) (now : PyDateTime) :
    List BudgetRow → Except String (List Budget × ℚ × ℚ)
  | [] => .ok ([], 0, 0)
  | br :: rest =>
    match pyFloat br.limitStr with
    | none => .error ("could not convert string to float: " ++ br.limitStr)
    | some lim =>
      let b := mkBudget receipts now br lim
      match buildBudgets receipts now rest with
      | .error e => .error e
      | .ok (bs, tb, ts) => .ok (b :: bs, lim + tb, b.current_spend + ts)

/-- `AnalysisService.get_budget_status` (analysis_service.py:403-463). -/
def get_budget_status (receipts : List LedgerRow) (budget_rows : List BudgetRow)
    (now : PyDateTime) : Except String BudgetStatus :=
  (buildBudgets receipts now budget_rows).map fun (r : List Budget × ℚ × ℚ) =>
    { budgets := r.1, total_budget := r.2.1, total_spent := r.2.2,
      overall_percentage := if 0 < r.2.1 then r.2.2 / r.2.1 * 100 else 0 }

deriving instance DecidableEq for Except

example :
    get_budget_status []
      [{ id := "b1", category := "Food", limitStr := "abc", period := "monthly",
         periodType := "calendar_month", startDate := "", endDate := "" }]
      (PyDateTime.mk 2025 2 1 12 0 0)
    = .error "could not convert string to float: abc" := by decide

example :
    (get_budget_status
      [ { date := "15-01-2025", merchant := "A", address := "", item := "x",
          category := "Groceries", qty := "", unitPrice := "", totalPrice := "10",
          tax := "", grandTotal := "", payment := "" } ]
      [{ id := "b1", category := "Grocery", limitStr := "100", period := "monthly",
         periodType := "calendar_month", startDate := "", endDate := "" }]
      (PyDateTime.mk 2025 1 20 12 0 0)).map
      (fun st => st.budgets.map (·.current_spend)) = .ok [10] := by decide

/-! ## Claims -/

/-- C1 counterexample: on the spec scenario's ledger (receipt dated
01-01-2025, merchant "Walmart", Milk 3.50, Bread 2.00, grand total 5.50) and
candidate (same date, merchant "WAL-MART", milk/bread, total 5.50),
`find_duplicate_receipts` returns **no** candidates, not one with
match_percentage 100: the token-set merchant similarity of "walmart" vs
"wal-mart" is 53, below the threshold 85, so every row is filtered out. -/
theorem C1_counterexample :
    find_duplicate_receipts scenarioCandidate scenarioLedger 1 85 = [] := by
  decide

/-- C1 (amended): on the spec scenario, the merchant similarity
`token_set_ratio("walmart", "wal-mart")` evaluates to 53 < 85, so
`checkDuplicates` returns the empty list (no duplicate candidate at all). -/
theorem C1_amended :
    token_set_ratio "walmart" "wal-mart" = 53 ∧ (53 : Int) < 85 ∧
    find_duplicate_receipts scenarioCandidate scenarioLedger 1 85 = [] :=
  ⟨by decide, by decide, by decide⟩

/-- C2: the claim that no core operation raises is broken by
`get_budget_status`: `float(budget_row.get("Limit", 0))` is outside any
`try`, so a stored budget whose Limit cell is not numeric (for instance
"abc") raises `ValueError` to the caller.  The model evaluates the code at
that failing input. -/
theorem C2_theorem :
    get_budget_status []
      [{ id := "b1", category := "Food", limitStr := "abc", period := "monthly",
         periodType := "calendar_month", startDate := "", endDate := "" }]
      (PyDateTime.mk 2026 10 12 0 0 0)
    = .error "could not convert string to float: abc" := by decide

/-- The ledger row of the C3 counterexample: an unparseable date. -/
def c3Row : LedgerRow :=
  { date := "garbage", merchant := "A", address := "", item := "x",
    category := "Dining", qty := "", unitPrice := "", totalPrice := "10",
    tax := "", grandTotal := "", payment := "" }

/-- C3 counterexample: a row whose date parses under neither format is *not*
skipped by `get_trends`: `_parse_date` falls back to `datetime.now()`, so the
row lands in the bucket of the current period (here 2026-10) with its full
amount. -/
theorem C3_counterexample :
    strptimeDMY "garbage" = none ∧ strptimeYMD "garbage" = none ∧
    (get_trends [c3Row] "monthly" none none none
        (PyDateTime.mk 2026 10 12 0 0 0)).total_by_period
      = [{ date := "2026-10", amount := 10, category := none }] :=
  ⟨by decide, by decide, by decide⟩

/-- C3 (amended): a ledger row with an unparseable date string is assigned
the current datetime by `_parse_date` instead of being skipped, and hence
contributes to the bucket of the period containing `now` (subject to the
other filters), as the concrete run shows. -/
theorem C3_amended :
    (∀ (s : String) (now : PyDateTime), strptimeDMY s = none →
      strptimeYMD s = none → analysis_parse_date s now = now) ∧
    (get_trends [c3Row] "monthly" none none none
        (PyDateTime.mk 2026 10 12 0 0 0)).total_by_period
      = [{ date := "2026-10", amount := 10, category := none }] := by
  constructor
  · intro s now h1 h2
    simp [analysis_parse_date, h1, h2]
  · decide

/-- C3 witness: the fallback at a concrete unparseable input. -/
theorem C3_witness :
    analysis_parse_date "garbage" (PyDateTime.mk 2026 10 12 0 0 0)
      = PyDateTime.mk 2026 10 12 0 0 0 :=
  C3_amended.1 "garbage" (PyDateTime.mk 2026 10 12 0 0 0) (by decide) (by decide)

/-- C5 counterexample: on an empty ledger `get_forecast` returns
`based_on_months = 0`, not the claimed fixed 3. -/
theorem C5_counterexample :
    (get_forecast [] (PyDateTime.mk 2026 10 12 0 0 0)).based_on_months = 0 ∧
    (get_forecast [] (PyDateTime.mk 2026 10 12 0 0 0)).based_on_months ≠ 3 :=
  ⟨by decide, by decide⟩

theorem bumpP_ne_nil (k : String × String) (v : ℚ)
    (m : List ((String × String) × ℚ)) : bumpP k v m ≠ [] := by
  cases m with
  | nil => simp [bumpP]
  | cons p rest =>
    obtain ⟨k0, v0⟩ := p
    by_cases h : k0 = k <;> simp [bumpP, h]

theorem forecastStep_ne_nil {m : List ((String × String) × ℚ)}
    (now : PyDateTime) (r : LedgerRow) (hm : m ≠ []) :
    forecastStep now m r ≠ [] := by
  unfold forecastStep
  cases h : forecastAmountOk r
  · simpa using hm
  · simp [bumpP_ne_nil]

theorem foldl_forecastStep_ne_nil (now : PyDateTime) (l : List LedgerRow)
    (m : List ((String × String) × ℚ)) (hm : m ≠ []) :
    l.foldl (forecastStep now) m ≠ [] := by
  induction l generalizing m with
  | nil => simpa using hm
  | cons r rest ih => exact ih _ (forecastStep_ne_nil now r hm)

theorem foldl_forecastStep_eq_nil_iff (now : PyDateTime) (l : List LedgerRow) :
    l.foldl (forecastStep now) [] = [] ↔ ∀ r ∈ l, forecastAmountOk r = none := by
  induction l with
  | nil => simp
  | cons r rest ih =>
    simp only [List.foldl_cons]
    cases h : forecastAmountOk r with
    | none =>
      rw [show forecastStep now [] r = [] from by simp [forecastStep, h]]
      rw [ih]
      simp [h]
    | some a =>
      have h1 : forecastStep now [] r ≠ [] := by
        simp [forecastStep, h, bumpP_ne_nil]
      have h2 := foldl_forecastStep_ne_nil now rest _ h1
      simp only [h2, false_iff]
      intro hall
      exact absurd (hall r (by simp)) (by simp [h])

theorem appendAmount_ne_nil (c : String) (a : ℚ) (l : List (String × List ℚ)) :
    appendAmount c a l ≠ [] := by
  cases l with
  | nil => simp [appendAmount]
  | cons p rest =>
    obtain ⟨c0, l0⟩ := p
    by_cases h : c0 = c <;> simp [appendAmount, h]

theorem foldl_appendAmount_ne_nil (l : List ((String × String) × ℚ))
    (acc : List (String × List ℚ)) (hacc : acc ≠ []) :
    l.foldl (fun acc p => appendAmount p.1.1 p.2 acc) acc ≠ [] := by
  induction l generalizing acc with
  | nil => simpa using hacc
  | cons p rest ih => exact ih _ (appendAmount_ne_nil _ _ _)

theorem groupAmounts_eq_nil_iff (m : List ((String × String) × ℚ)) :
    groupAmounts m = [] ↔ m = [] := by
  unfold groupAmounts
  cases m with
  | nil => simp
  | cons p rest =>
    simp only [List.foldl_cons]
    constructor
    · intro h
      exact absurd h (foldl_appendAmount_ne_nil rest _ (appendAmount_ne_nil _ _ _))
    · intro h
      exact absurd h (by simp)

/-- C5 (amended): `confidence` is 0.7 exactly when some row in the trailing
90 days has a usable positive amount and 0 otherwise; but `based_on_months`
is **not** fixed at 3: it is 0 when the ledger is empty or no row falls in
the trailing 90 days, and 3 otherwise. -/
theorem C5_amended (receipts : List LedgerRow) (now : PyDateTime) :
    ((get_forecast receipts now).confidence =
      if (recentReceipts receipts now).any (fun r => (forecastAmountOk r).isSome)
      then 7/10 else 0) ∧
    ((get_forecast receipts now).based_on_months =
      if recentReceipts receipts now = [] then 0 else 3) := by
  unfold get_forecast
  by_cases h0 : receipts.isEmpty
  · have hrec : recentReceipts receipts now = [] := by
      rw [List.isEmpty_iff] at h0
      simp [recentReceipts, h0]
    simp [h0, hrec]
  · simp only [h0, Bool.false_eq_true, if_false]
    by_cases h1 : (recentReceipts receipts now).isEmpty
    · rw [List.isEmpty_iff] at h1
      simp [h1]
    · have hne : recentReceipts receipts now ≠ [] := by
        simpa [List.isEmpty_iff] using h1
      simp only [h1, Bool.false_eq_true, if_false, if_neg hne]
      refine ⟨?_, trivial⟩
      by_cases hany :
          (recentReceipts receipts now).any (fun r => (forecastAmountOk r).isSome)
      · have : ¬((recentReceipts receipts now).foldl (forecastStep now) [] = []) := by
          rw [foldl_forecastStep_eq_nil_iff]
          rw [List.any_eq_true] at hany
          obtain ⟨r, hr, hsome⟩ := hany
          intro hall
          rw [hall r hr] at hsome
          simp at hsome
        have hlen : 0 < (groupAmounts
            ((recentReceipts receipts now).foldl (forecastStep now) [])).length := by
          refine List.length_pos.mpr ?_
          intro hnil
          rw [groupAmounts_eq_nil_iff] at hnil
          exact this hnil
        simp [hany, hlen]
      · have hall : ∀ r ∈ recentReceipts receipts now, forecastAmountOk r = none := by
          intro r hr
          by_contra hne2
          exact hany (List.any_eq_true.mpr ⟨r, hr, by
            cases hx : forecastAmountOk r
            · exact absurd hx hne2
            · simp⟩)
        have : (recentReceipts receipts now).foldl (forecastStep now) [] = [] :=
          (foldl_forecastStep_eq_nil_iff now _).mpr hall
        simp [hany, this, groupAmounts]

theorem filterMap_if_eq_filter_map {α β : Type} (p : α → Bool) (f : α → β)
    (l : List α) :
    (l.filterMap fun x => if p x then some (f x) else none) =
      (l.filter p).map f := by
  induction l with
  | nil => simp
  | cons x rest ih =>
    by_cases h : p x <;> simp [h, ih]

theorem isDuplicateGroup_iff (receipt : CandReceipt) (g : ReceiptGroup) :
    isDuplicateGroup receipt g =
      ((match g.grandTotal with
        | none => true
        | some gt => decide (|gt - receipt.total| ≤ 1/100))
        && decide ((70 : ℚ) ≤ (matchedCount receipt g : ℚ) /
            ((max receipt.line_items.length g.items.length : Nat) : ℚ) * 100)) := by
  unfold isDuplicateGroup matchPercentage
  cases hgt : g.grandTotal with
  | none =>
    dsimp only
    rw [Bool.true_and]
    by_cases hT : 0 < max receipt.line_items.length g.items.length
    · rw [if_pos hT]
    · rw [if_neg hT]
      have hT0 : max receipt.line_items.length g.items.length = 0 := by omega
      rw [hT0]
      norm_num
  | some gt =>
    dsimp only
    by_cases hd : (1:ℚ)/100 < |receipt.total - gt|
    · rw [if_pos hd]
      have hnot : ¬(|gt - receipt.total| ≤ 1/100) := by
        rw [abs_sub_comm]
        exact not_le.mpr hd
      rw [decide_eq_false hnot, Bool.false_and]
    · rw [if_neg hd]
      have h1 : |gt - receipt.total| ≤ 1/100 := by
        rw [abs_sub_comm]
        exact not_lt.1 hd
      rw [decide_eq_true h1, Bool.true_and]
      by_cases hT : 0 < max receipt.line_items.length g.items.length
      · rw [if_pos hT]
      · rw [if_neg hT]
        have hT0 : max receipt.line_items.length g.items.length = 0 := by omega
        rw [hT0]
        norm_num

/-- Ledger rows of the C6 counterexample: a well-matched receipt whose
`Grand Total` cell is the non-numeric string "oops", which pandas coerces to
`NaN`. -/
def c6Ledger : List LedgerRow :=
  [ { date := "01-01-2025", merchant := "Walmart", address := "", item := "Milk",
      category := "Groceries", qty := "1", unitPrice := "3.50",
      totalPrice := "3.50", tax := "", grandTotal := "oops", payment := "card" },
    { date := "01-01-2025", merchant := "Walmart", address := "", item := "Bread",
      category := "Groceries", qty := "1", unitPrice := "2.00",
      totalPrice := "2.00", tax := "", grandTotal := "oops", payment := "card" } ]

/-- Candidate of the C6 counterexample: same merchant and items, total 5.50. -/
def c6Candidate : CandReceipt :=
  { purchase_date := "01-01-2025", merchant_name := "Walmart", total := 55/10,
    line_items := [ { item_name := "milk", price := 35/10 },
                    { item_name := "bread", price := 2 } ] }

/-- C6 counterexample: a group whose grand total is `NaN` (the cell does not
parse, so no rational total exists and `abs(total - NaN) ≤ 0.01` is false in
Python) is nevertheless reported as a duplicate at 100% item match: the
`amount_diff > 0.01` rejection never fires on `NaN`.  This refutes the
claimed "if and only if". -/
theorem C6_counterexample :
    pyFloat "oops" = none ∧
    (find_duplicate_receipts c6Candidate c6Ledger 1 85).map
      (fun d => (d.grandTotal, d.match_percentage)) = [(none, 100)] :=
  ⟨by decide, by decide⟩

/-- C6 (amended): a reconstructed group is reported as a duplicate if and
only if `matched_count / max(len(candidate items), len(group items)) * 100`
is at least 70 (rational convention `x/0 = 0`, matching the code's `else 0`
guard) and the group's grand total is either within 0.01 of the candidate's
total or `NaN` (a non-numeric cell), since `amount_diff > 0.01` is `False`
for `NaN`: the detector's output is exactly the groups passing that test, in
order, mapped to their summaries. -/
theorem C6_amended (receipt : CandReceipt) (rows : List LedgerRow)
    (threshold_days fuzzy_threshold : Int) :
    find_duplicate_receipts receipt rows threshold_days fuzzy_threshold =
      ((receiptGroups (pyStrip (pyLower receipt.merchant_name))
          (survivors receipt rows threshold_days fuzzy_threshold)).filter
        (fun g =>
          (match g.grandTotal with
           | none => true
           | some gt => decide (|gt - receipt.total| ≤ 1/100))
          && decide ((70 : ℚ) ≤ (matchedCount receipt g : ℚ) /
              ((max receipt.line_items.length g.items.length : Nat) : ℚ) * 100))).map
        (mkSummary receipt) := by
  unfold find_duplicate_receipts
  simp only [isDuplicateGroup_iff]
  rw [filterMap_if_eq_filter_map]

theorem buildBudgets_percentage (receipts : List LedgerRow) (now : PyDateTime) :
    ∀ (rows : List BudgetRow) (l : List Budget) (tb ts : ℚ),
      buildBudgets receipts now rows = .ok (l, tb, ts) →
      ∀ b ∈ l, (b.limit = 0 → b.percentage_used = 0) ∧
        (0 < b.limit → b.percentage_used = b.current_spend / b.limit * 100) := by
  intro rows
  induction rows with
  | nil =>
    intro l tb ts h b hb
    unfold buildBudgets at h
    simp only [Except.ok.injEq, Prod.mk.injEq] at h
    rw [← h.1] at hb
    simp at hb
  | cons br rest ih =>
    intro l tb ts h b hb
    unfold buildBudgets at h
    cases hpf : pyFloat br.limitStr with
    | none =>
      rw [hpf] at h
      simp at h
    | some lim =>
      rw [hpf] at h
      cases hrec : buildBudgets receipts now rest with
      | error e =>
        rw [hrec] at h
        simp at h
      | ok r =>
        obtain ⟨bs, tb', ts'⟩ := r
        rw [hrec] at h
        simp only [Except.ok.injEq, Prod.mk.injEq] at h
        rw [← h.1] at hb
        rcases List.mem_cons.1 hb with hbe | hbs
        · subst hbe
          refine ⟨fun h0 => ?_, fun hpos => ?_⟩
          · simp only [mkBudget] at h0 ⊢
            rw [h0]
            simp
          · simp only [mkBudget] at hpos ⊢
            rw [if_pos hpos]
        · exact ih bs tb' ts' hrec b hbs

/-- C7: in every successfully computed `BudgetStatus`, a budget with limit 0
has `percentage_used = 0` (the guard avoids the division), and a budget with
positive limit has `percentage_used = current_spend / limit * 100`. -/
theorem C7_theorem (receipts : List LedgerRow) (budget_rows : List BudgetRow)
    (now : PyDateTime) (st : BudgetStatus) (b : Budget)
    (hok : get_budget_status receipts budget_rows now = .ok st)
    (hb : b ∈ st.budgets) :
    (b.limit = 0 → b.percentage_used = 0) ∧
    (0 < b.limit → b.percentage_used = b.current_spend / b.limit * 100) := by
  unfold get_budget_status at hok
  cases hbb : buildBudgets receipts now budget_rows with
  | error e =>
    rw [hbb] at hok
    simp [Except.map] at hok
  | ok r =>
    obtain ⟨bs, tb, ts⟩ := r
    rw [hbb] at hok
    simp only [Except.map, Except.ok.injEq] at hok
    have hmem : b ∈ bs := by
      rw [← hok] at hb
      simpa using hb
    exact buildBudgets_percentage receipts now budget_rows bs tb ts hbb b hmem

/-- Budget rows of the C7 witness: a zero limit and a positive limit. -/
def c7BudgetRows : List BudgetRow :=
  [ { id := "b1", category := "Food", limitStr := "0", period := "monthly",
      periodType := "calendar_month", startDate := "", endDate := "" },
    { id := "b2", category := "Food", limitStr := "100", period := "monthly",
      periodType := "calendar_month", startDate := "", endDate := "" } ]

/-- The successfully computed status of the C7 witness. -/
def c7Status : BudgetStatus :=
  match get_budget_status [] c7BudgetRows (PyDateTime.mk 2026 10 12 0 0 0) with
  | .ok st => st
  | .error _ => default

/-- The zero-limit budget of the C7 witness. -/
def c7Budget : Budget := c7Status.budgets.headD default

/-- C7 witness: the theorem applied to a concrete zero-limit budget. -/
theorem C7_witness : c7Budget.limit = 0 ∧ c7Budget.percentage_used = 0 :=
  ⟨by decide,
    (C7_theorem [] c7BudgetRows (PyDateTime.mk 2026 10 12 0 0 0) c7Status c7Budget
      (by decide) (by decide)).1 (by decide)⟩

/-- Sum of the per-category totals of the aggregation state. -/
def totalsOf (m : List (String × ℚ × Nat)) : ℚ := (m.map fun p => p.2.1).sum

theorem totalsOf_bump2 (k : String) (v : ℚ) (m : List (String × ℚ × Nat)) :
    totalsOf (bump2 k v m) = totalsOf m + v := by
  induction m with
  | nil => simp [bump2, totalsOf]
  | cons p rest ih =>
    obtain ⟨k0, tn⟩ := p
    by_cases h : k0 = k
    · simp [bump2, h, totalsOf]
      ring
    · simp [bump2, h, totalsOf] at ih ⊢
      rw [ih]
      ring

theorem categoryAgg_invariant (l : List LedgerRow) :
    ∀ st : List (String × ℚ × Nat) × ℚ, st.2 = totalsOf st.1 →
      (l.foldl categoryAggStep st).2 = totalsOf (l.foldl categoryAggStep st).1 := by
  induction l with
  | nil => intro st h; simpa using h
  | cons r rest ih =>
    intro st h
    simp only [List.foldl_cons]
    refine ih _ ?_
    unfold categoryAggStep
    by_cases he : pyStrip r.totalPrice = ""
    · simpa [he] using h
    · rw [if_neg he]
      cases hf : pyFloat r.totalPrice with
      | none => exact h
      | some amount =>
        by_cases hle : amount ≤ 0
        · simpa [hle] using h
        · simp only [hle, if_false, totalsOf_bump2]
          rw [h]

/-- C8: whenever `get_category_analysis` reports positive total spending,
the per-category percentages sum to exactly 100 (exact in ℚ; Python floats
agree up to rounding). -/
theorem C8_theorem (receipts : List LedgerRow) (period : String)
    (sd ed : Option String) (catFilter : List String) (mn mx : Option ℚ)
    (now : PyDateTime)
    (hpos : 0 < (get_category_analysis receipts period sd ed catFilter
      mn mx now).total_spending) :
    ((get_category_analysis receipts period sd ed catFilter mn mx
      now).categories.map (·.percentage)).sum = 100 := by
  unfold get_category_analysis at hpos ⊢
  by_cases h0 : receipts.isEmpty
  · rw [if_pos h0] at hpos
    simp at hpos
  · rw [if_neg h0] at hpos ⊢
    simp only at hpos ⊢
    set fsfe := dateFilterRange (some period) sd ed now with hfsfe
    set filtered := receipts.filter
      (passesCategoryFilter fsfe.1 fsfe.2 catFilter mn mx now) with hfiltered
    by_cases h1 : filtered.isEmpty
    · rw [if_pos h1] at hpos
      simp at hpos
    · rw [if_neg h1] at hpos ⊢
      simp only at hpos ⊢
      set st := filtered.foldl categoryAggStep ([], 0) with hst
      have hinv : st.2 = totalsOf st.1 :=
        categoryAgg_invariant filtered ([], 0) (by simp [totalsOf])
      have hT : 0 < st.2 := hpos
      have hTne : st.2 ≠ 0 := ne_of_gt hT
      set spendings := st.1.map (fun p : String × ℚ × Nat =>
        ({ category := p.1, total := p.2.1,
           percentage := if 0 < st.2 then p.2.1 / st.2 * 100 else 0,
           count := p.2.2,
           average := if 0 < p.2.2 then p.2.1 / (p.2.2 : ℚ) else 0 } :
          CategorySpending)) with hsp
      have hperm : List.Perm
          (spendings.insertionSort fun a b => b.total ≤ a.total) spendings :=
        List.perm_insertionSort _ _
      rw [(hperm.map (fun x : CategorySpending => x.percentage)).sum_eq]
      rw [hsp, List.map_map]
      have hfun : ((fun x : CategorySpending => x.percentage) ∘
          fun p : String × ℚ × Nat =>
          ({ category := p.1, total := p.2.1,
             percentage := if 0 < st.2 then p.2.1 / st.2 * 100 else 0,
             count := p.2.2,
             average := if 0 < p.2.2 then p.2.1 / (p.2.2 : ℚ) else 0 } :
            CategorySpending)) = fun p : String × ℚ × Nat => p.2.1 * (100 / st.2) := by
        funext p
        simp only [Function.comp, if_pos hT]
        ring
      rw [hfun, List.sum_map_mul_right]
      have hsum : (st.1.map fun p : String × ℚ × Nat => p.2.1).sum = st.2 := by
        rw [hinv]; rfl
      rw [hsum]
      field_simp

/-- Ledger of the C8/C9 witnesses: two categories with positive amounts. -/
def wLedger : List LedgerRow :=
  [ { date := "15-01-2025", merchant := "A", address := "", item := "x",
      category := "Dining", qty := "", unitPrice := "", totalPrice := "10",
      tax := "", grandTotal := "", payment := "" },
    { date := "20-01-2025", merchant := "A", address := "", item := "y",
      category := "Travel", qty := "", unitPrice := "", totalPrice := "30",
      tax := "", grandTotal := "", payment := "" } ]

/-- C8 witness: the percentage sum at a concrete positive-spending input. -/
theorem C8_witness :
    0 < (get_category_analysis wLedger "all" none none [] none none
      (PyDateTime.mk 2025 2 1 12 0 0)).total_spending ∧
    ((get_category_analysis wLedger "all" none none [] none none
      (PyDateTime.mk 2025 2 1 12 0 0)).categories.map (·.percentage)).sum = 100 :=
  ⟨by decide,
    C8_theorem wLedger "all" none none [] none none
      (PyDateTime.mk 2025 2 1 12 0 0) (by decide)⟩

theorem bumpNested_pos {nd : List (String × List (String × ℚ))} {c k : String}
    {v : ℚ} (hnd : ∀ cm ∈ nd, ∀ p ∈ cm.2, 0 < p.2) (hv : 0 < v) :
    ∀ cm ∈ bumpNested c k v nd, ∀ p ∈ cm.2, 0 < p.2 := by
  induction nd with
  | nil =>
    intro cm hcm p hp
    simp [bumpNested] at hcm
    rw [hcm] at hp
    simp at hp
    simpa [hp] using hv
  | cons q rest ih =>
    obtain ⟨c0, m⟩ := q
    by_cases h0 : c0 = c
    · rw [bumpNested_cons_eq h0]
      intro cm hcm p hp
      rcases List.mem_cons.1 hcm with he | hr
      · rw [he] at hp
        exact bump_pos (hnd (c0, m) (by simp)) hv p hp
      · exact hnd cm (List.mem_cons_of_mem _ hr) p hp
    · rw [bumpNested_cons_ne h0]
      intro cm hcm p hp
      rcases List.mem_cons.1 hcm with he | hr
      · rw [he] at hp
        exact hnd (c0, m) (by simp) p hp
      · exact ih (fun q hq => hnd q (List.mem_cons_of_mem _ hq)) cm hr p hp

theorem bumpNested_keys (nd : List (String × List (String × ℚ)))
    (c k : String) (v : ℚ) :
    (bumpNested c k v nd).map Prod.fst =
      if c ∈ nd.map Prod.fst then nd.map Prod.fst
      else nd.map Prod.fst ++ [c] := by
  induction nd with
  | nil => simp [bumpNested]
  | cons p rest ih =>
    obtain ⟨c0, m⟩ := p
    by_cases h0 : c0 = c
    · subst h0
      rw [bumpNested_cons_eq rfl]
      simp
    · rw [bumpNested_cons_ne h0]
      simp only [List.map_cons, ih]
      have hne : ¬c = c0 := fun hh => h0 hh.symm
      by_cases hk : c ∈ rest.map Prod.fst <;>
        simp [hk, List.mem_cons, hne]

theorem bumpNested_nodup {nd : List (String × List (String × ℚ))}
    {c k : String} {v : ℚ} (h : (nd.map Prod.fst).Nodup) :
    ((bumpNested c k v nd).map Prod.fst).Nodup := by
  rw [bumpNested_keys]
  by_cases hk : c ∈ nd.map Prod.fst
  · simpa [hk]
  · simpa [hk] using List.Nodup.append h (by simp) (by simpa using hk)

theorem trendRowInfo_pos {period : String} {fs fe : Option PyDateTime}
    {now : PyDateTime} {r : LedgerRow} {c pk : String} {a : ℚ}
    (h : trendRowInfo period fs fe now r = some (c, pk, a)) : 0 < a := by
  simp only [trendRowInfo] at h
  repeat' split at h
  any_goals exact Option.noConfusion h
  all_goals
    simp only [Option.some.injEq, Prod.mk.injEq] at h
    rw [← h.2.2]
    exact lt_of_not_le (by assumption)

/-- Invariant of the `get_trends` accumulator: all stored amounts positive,
the category list mirrors the nested map's keys, keys duplicate-free, and
the totals map is the keywise sum of the per-category maps. -/
def TrendInv (st : TrendState) : Prop :=
  (∀ p ∈ st.totals, 0 < p.2) ∧
  (∀ cm ∈ st.catData, ∀ p ∈ cm.2, 0 < p.2) ∧
  st.catData.map Prod.fst = st.cats ∧
  (st.totals.map Prod.fst).Nodup ∧
  (st.catData.map Prod.fst).Nodup ∧
  ∀ k, keySum st.totals k = nestedKeySum st.catData k

theorem trendStep_inv {period : String} {fs fe : Option PyDateTime}
    {now : PyDateTime} {st : TrendState} {r : LedgerRow} (h : TrendInv st) :
    TrendInv (trendStep period fs fe now st r) := by
  unfold trendStep
  cases hri : trendRowInfo period fs fe now r with
  | none => exact h
  | some cpa =>
    obtain ⟨c, pk, a⟩ := cpa
    have ha : 0 < a := trendRowInfo_pos hri
    obtain ⟨h1, h2, h3, h4, h5, h6⟩ := h
    refine ⟨bump_pos h1 ha, bumpNested_pos h2 ha, ?_, bump_nodup h4,
      bumpNested_nodup h5, ?_⟩
    · show (bumpNested c pk a st.catData).map Prod.fst = _
      rw [bumpNested_keys, h3]
      by_cases hc : c ∈ st.cats
      · simp [hc, List.contains_iff_exists_mem_beq]
      · have : st.cats.contains c = false := by
          rw [List.contains_eq_any_beq]
          rw [List.any_eq_false]
          intro x hx
          simp only [beq_iff_eq]
          intro he
          exact hc (he ▸ hx)
        simp [hc, this]
    · intro k
      show keySum (bump pk a st.totals) k = nestedKeySum (bumpNested c pk a st.catData) k
      rw [keySum_bump, nestedKeySum_bumpNested, h6]

theorem foldl_trendStep_inv (period : String) (fs fe : Option PyDateTime)
    (now : PyDateTime) (l : List LedgerRow) (st : TrendState)
    (h : TrendInv st) : TrendInv (l.foldl (trendStep period fs fe now) st) := by
  induction l generalizing st with
  | nil => simpa using h
  | cons r rest ih => exact ih _ (trendStep_inv h)

theorem keySum_eq_zero_of_not_mem {m : List (String × ℚ)} {k : String}
    (h : k ∉ m.map Prod.fst) : keySum m k = 0 := by
  induction m with
  | nil => rfl
  | cons p rest ih =>
    obtain ⟨k0, v0⟩ := p
    rw [keySum_cons]
    have hne : ¬k0 = k := by
      intro he
      exact h (by simp [he])
    rw [if_neg hne, ih (fun hh => h (by simp [hh]))]
    ring

theorem keySum_of_mem_nodup {m : List (String × ℚ)} {k : String} {v : ℚ}
    (hn : (m.map Prod.fst).Nodup) (hm : (k, v) ∈ m) : keySum m k = v := by
  induction m with
  | nil => simp at hm
  | cons p rest ih =>
    obtain ⟨k0, v0⟩ := p
    rw [keySum_cons]
    rcases List.mem_cons.1 hm with he | hr
    · obtain ⟨hk, hv⟩ := Prod.mk.injEq .. ▸ he.symm
      subst hk
      rw [if_pos rfl]
      have hnotin : k0 ∉ rest.map Prod.fst := (List.nodup_cons.1 hn).1
      rw [keySum_eq_zero_of_not_mem hnotin, hv]
      ring
    · have hkmem : k ∈ rest.map Prod.fst := List.mem_map_of_mem Prod.fst hr
      have hne : ¬k0 = k := fun he2 =>
        (List.nodup_cons.1 hn).1 (by rw [he2]; exact hkmem)
      rw [if_neg hne, ih (List.nodup_cons.1 hn).2 hr]
      ring

/-- Total amount a series carries at one period key (the series' keys are
unique, so this is the point's amount when present and 0 otherwise). -/
def seriesAmount (s : List TimeSeriesPoint) (k : String) : ℚ :=
  ((s.filter fun p => p.date = k).map (·.amount)).sum

theorem keySum_perm {m m' : List (String × ℚ)} (h : List.Perm m m')
    (k : String) : keySum m k = keySum m' k :=
  ((h.filter _).map _).sum_eq

theorem seriesAmount_seriesOf (c : Option String) (m : List (String × ℚ))
    (k : String) : seriesAmount (seriesOf c m) k = keySum m k := by
  unfold seriesAmount seriesOf
  rw [List.filter_map, List.map_map]
  have hcomp : ((fun p : TimeSeriesPoint => decide (p.date = k)) ∘
      fun p : String × ℚ =>
        ({ date := p.1, amount := p.2, category := c } : TimeSeriesPoint)) =
      fun p : String × ℚ => decide (p.1 = k) := rfl
  have hcomp2 : ((fun p : TimeSeriesPoint => p.amount) ∘
      fun p : String × ℚ =>
        ({ date := p.1, amount := p.2, category := c } : TimeSeriesPoint)) =
      fun p : String × ℚ => p.2 := rfl
  rw [hcomp, hcomp2]
  show keySum (sortedItems m) k = keySum m k
  unfold sortedItems
  exact keySum_perm (List.perm_insertionSort _ _) k

theorem mem_seriesOf {c : Option String} {m : List (String × ℚ)}
    {p : TimeSeriesPoint} (hp : p ∈ seriesOf c m) :
    ∃ kv ∈ m, p = { date := kv.1, amount := kv.2, category := c } := by
  unfold seriesOf at hp
  obtain ⟨kv, hkv, he⟩ := List.mem_map.1 hp
  exact ⟨kv, (List.perm_insertionSort _ _).mem_iff.1 hkv, he.symm⟩

theorem lookupNested_pos {nd : List (String × List (String × ℚ))} {c : String}
    (h : ∀ cm ∈ nd, ∀ p ∈ cm.2, 0 < p.2) :
    ∀ p ∈ lookupNested nd c, 0 < p.2 := by
  unfold lookupNested
  cases hf : nd.find? (fun p => p.1 = c) with
  | none => simp
  | some cm =>
    simp only [Option.map_some', Option.getD_some]
    intro p hp
    exact h cm (List.mem_of_find?_eq_some hf) p hp

theorem sum_lookup_eq_nestedKeySum {nd : List (String × List (String × ℚ))}
    (hn : (nd.map Prod.fst).Nodup) (k : String) :
    ((nd.map Prod.fst).map fun c => keySum (lookupNested nd c) k).sum
      = nestedKeySum nd k := by
  induction nd with
  | nil => simp [nestedKeySum]
  | cons q rest ih =>
    obtain ⟨c0, m⟩ := q
    simp only [List.map_cons, List.sum_cons, nestedKeySum_cons]
    have hlook0 : lookupNested ((c0, m) :: rest) c0 = m := by
      unfold lookupNested
      rw [List.find?_cons_of_pos _ (by simp)]
      rfl
    have hn' : (rest.map Prod.fst).Nodup := (List.nodup_cons.1 hn).2
    have hc0 : c0 ∉ rest.map Prod.fst := (List.nodup_cons.1 hn).1
    rw [hlook0]
    congr 1
    rw [← ih hn']
    refine congrArg List.sum ?_
    apply List.map_congr_left
    intro c hc
    have hne : ¬c0 = c := fun he => hc0 (he ▸ hc)
    unfold lookupNested
    rw [List.find?_cons_of_neg _ (by simp [hne])]

/-- C9: in every `TrendData` returned by `get_trends`, all series amounts
(per-category and total) are strictly positive, and at each period key of
`total_by_period` the total equals the sum over all category series of their
amount at that key. -/
theorem C9_theorem (receipts : List LedgerRow) (period : String)
    (date_filter : Option String) (start_date end_date : Option String)
    (now : PyDateTime) :
    (∀ cs ∈ (get_trends receipts period date_filter start_date end_date
        now).data, ∀ p ∈ cs.2, 0 < p.amount) ∧
    (∀ p ∈ (get_trends receipts period date_filter start_date end_date
        now).total_by_period, 0 < p.amount) ∧
    (∀ p ∈ (get_trends receipts period date_filter start_date end_date
        now).total_by_period,
      p.amount =
        ((get_trends receipts period date_filter start_date end_date
          now).data.map fun cs => seriesAmount cs.2 p.date).sum) := by
  by_cases h0 : receipts.isEmpty
  · unfold get_trends
    rw [if_pos h0]
    refine ⟨?_, ?_, ?_⟩ <;> intro x hx <;> simp at hx
  · unfold get_trends
    rw [if_neg h0]
    dsimp only
    set fsfe := dateFilterRange date_filter start_date end_date now with hfsfe
    set st := receipts.foldl (trendStep period fsfe.1 fsfe.2 now) ⟨[], [], []⟩
      with hst
    have hinv : TrendInv st := by
      rw [hst]
      refine foldl_trendStep_inv _ _ _ _ _ _ ?_
      refine ⟨?_, ?_, rfl, ?_, ?_, ?_⟩ <;> simp [keySum, nestedKeySum]
    obtain ⟨h1, h2, h3, h4, h5, h6⟩ := hinv
    refine ⟨?_, ?_, ?_⟩
    · intro cs hcs p hp
      obtain ⟨c, hc, he⟩ := List.mem_map.1 hcs
      rw [← he] at hp
      obtain ⟨kv, hkv, hpe⟩ := mem_seriesOf hp
      rw [hpe]
      exact lookupNested_pos h2 kv hkv
    · intro p hp
      obtain ⟨kv, hkv, hpe⟩ := mem_seriesOf hp
      rw [hpe]
      exact h1 kv hkv
    · intro p hp
      obtain ⟨kv, hkv, hpe⟩ := mem_seriesOf hp
      obtain ⟨k, v⟩ := kv
      rw [hpe]
      have hcompose :
          ((fun cs : String × List TimeSeriesPoint => seriesAmount cs.2 k) ∘
            fun c => (c, seriesOf (some c) (lookupNested st.catData c))) =
          fun c => keySum (lookupNested st.catData c) k := by
        funext c
        exact seriesAmount_seriesOf _ _ _
      show v = ((st.cats.map fun c =>
        (c, seriesOf (some c) (lookupNested st.catData c))).map
          fun cs => seriesAmount cs.2 k).sum
      rw [List.map_map, hcompose, ← h3, sum_lookup_eq_nestedKeySum h5 k,
        ← h6 k]
      exact (keySum_of_mem_nodup h4 hkv).symm

/-- C9 witness: positivity and the total-equals-sum-of-categories identity
applied to the concrete 2025-01 bucket of `wLedger`. -/
theorem C9_witness :
    (0 : ℚ) < 40 ∧
    (40 : ℚ) = ((get_trends wLedger "monthly" none none none
      (PyDateTime.mk 2025 2 1 12 0 0)).data.map
        fun cs => seriesAmount cs.2 "2025-01").sum := by
  constructor
  · exact (C9_theorem wLedger "monthly" none none none
      (PyDateTime.mk 2025 2 1 12 0 0)).2.1
      { date := "2025-01", amount := 40, category := none } (by decide)
  · exact (C9_theorem wLedger "monthly" none none none
      (PyDateTime.mk 2025 2 1 12 0 0)).2.2
      { date := "2025-01", amount := 40, category := none } (by decide)

theorem toNat_ofNat_of_lt {n : Nat} (h : n < 55296) : (Char.ofNat n).toNat = n := by
  rw [Char.ofNat, dif_pos (Or.inl h)]
  show (UInt32.ofNat' n _).toNat = n
  simp [UInt32.ofNat', UInt32.toNat]

theorem pyLowerChar_idem (c : Char) : pyLowerChar (pyLowerChar c) = pyLowerChar c := by
  unfold pyLowerChar
  by_cases h : 65 ≤ c.toNat ∧ c.toNat ≤ 90
  · rw [if_pos h]
    have hval : (Char.ofNat (c.toNat + 32)).toNat = c.toNat + 32 :=
      toNat_ofNat_of_lt (by omega)
    rw [if_neg (by rw [hval]; omega)]
  · rw [if_neg h, if_neg h]

theorem mem_of_mem_pyStripL {l : List Char} {x : Char} (h : x ∈ pyStripL l) :
    x ∈ l := by
  unfold pyStripL at h
  have h1 := List.mem_reverse.1 h
  have h2 := (List.dropWhile_sublist pyIsSpace).subset h1
  have h3 := List.mem_reverse.1 h2
  exact (List.dropWhile_sublist pyIsSpace).subset h3

theorem map_fixed {f : Char → Char} {l : List Char} (h : ∀ x ∈ l, f x = x) :
    l.map f = l := by
  rw [List.map_congr_left h]
  exact List.map_id _

theorem lowerChar_fixed_of_mem_n {l : List Char} {x : Char}
    (h : x ∈ pyStripL (pyLowerL l)) : pyLowerChar x = x := by
  have h1 : x ∈ pyLowerL l := mem_of_mem_pyStripL h
  obtain ⟨w, _, hw⟩ := List.mem_map.1 h1
  rw [← hw]
  exact pyLowerChar_idem w

theorem lowerChar_fixed_of_mem_normCatL {l : List Char} {x : Char}
    (h : x ∈ normCatL l) : pyLowerChar x = x := by
  simp only [normCatL] at h
  split at h
  · rcases List.mem_append.1 h with h1 | h1
    · exact lowerChar_fixed_of_mem_n (List.take_subset _ _ h1)
    · rw [List.mem_singleton.1 h1]
      decide
  · split at h
    · exact lowerChar_fixed_of_mem_n (List.take_subset _ _ h)
    · exact lowerChar_fixed_of_mem_n h

theorem endsWithL_iff {l s : List Char} : endsWithL l s = true ↔ s <:+ l :=
  List.isSuffixOf_iff_suffix

theorem endsWithL_append_singleton_false {t : List Char} {a : Char}
    {suf : List Char} (hs : suf ≠ []) (hlast : suf.getLast? ≠ some a) :
    endsWithL (t ++ [a]) suf = false := by
  by_contra hcon
  have htrue : endsWithL (t ++ [a]) suf = true := by
    cases hx : endsWithL (t ++ [a]) suf
    · exact absurd hx hcon
    · rfl
  obtain ⟨s, hsuf⟩ := endsWithL_iff.1 htrue
  have h1 : (s ++ suf).getLast? = suf.getLast? :=
    List.getLast?_append_of_ne_nil _ hs
  rw [hsuf] at h1
  rw [List.getLast?_concat] at h1
  exact hlast h1.symm

theorem endsWithL_trans_suffix {l s1 s2 : List Char} (h : endsWithL l s1 = true)
    (hsub : s2 <:+ s1) : endsWithL l s2 = true :=
  endsWithL_iff.2 (hsub.trans (endsWithL_iff.1 h))

theorem dropRightL_append_singleton (t : List Char) (a : Char) :
    dropRightL (t ++ [a]) 1 = t := by
  unfold dropRightL
  simp

/-- Applying `_normalize_category`'s suffix rules to an already normalized
string for which neither branch condition holds leaves it unchanged. -/
theorem normCatL_fixed {y : List Char} (hlower : pyLowerL y = y)
    (hstrip : pyStripL y = y) (hies : endsWithL y ['i', 'e', 's'] = false)
    (hs : ¬(endsWithL y ['s'] = true ∧ ¬endsWithL y ['s', 's'] = true)) :
    normCatL y = y := by
  unfold normCatL
  rw [hlower, hstrip]
  simp only [hies, Bool.false_eq_true, if_false]
  rw [if_neg hs]

theorem normCatL_idem_of_strip (l : List Char)
    (hstrip : pyStripL (normCatL l) = normCatL l) :
    normCatL (normCatL l) = normCatL l := by
  have hlower : pyLowerL (normCatL l) = normCatL l :=
    map_fixed (fun x hx => lowerChar_fixed_of_mem_normCatL hx)
  by_cases hies : endsWithL (pyStripL (pyLowerL l)) ['i', 'e', 's'] = true
  · have hy : normCatL l = dropRightL (pyStripL (pyLowerL l)) 3 ++ ['y'] := by
      simp only [normCatL]
      rw [if_pos hies]
    rw [hy] at hlower hstrip ⊢
    refine normCatL_fixed hlower hstrip ?_ ?_
    · exact endsWithL_append_singleton_false (by simp) (by decide)
    · intro hand
      have hfalse : endsWithL (dropRightL (pyStripL (pyLowerL l)) 3 ++ ['y'])
          ['s'] = false :=
        endsWithL_append_singleton_false (by simp) (by decide)
      rw [hfalse] at hand
      exact Bool.noConfusion hand.1
  · by_cases hS : endsWithL (pyStripL (pyLowerL l)) ['s'] = true ∧
        ¬endsWithL (pyStripL (pyLowerL l)) ['s', 's'] = true
    · obtain ⟨t, ht⟩ := endsWithL_iff.1 hS.1
      have hy : normCatL l = t := by
        simp only [normCatL]
        rw [if_neg hies, if_pos hS, ← ht, dropRightL_append_singleton]
      have hts : endsWithL t ['s'] = false := by
        cases hx : endsWithL t ['s']
        · rfl
        · obtain ⟨u, hu⟩ := endsWithL_iff.1 hx
          exfalso
          apply hS.2
          apply endsWithL_iff.2
          refine ⟨u, ?_⟩
          rw [← ht, ← hu]
          simp
      have hties : endsWithL t ['i', 'e', 's'] = false := by
        cases hx : endsWithL t ['i', 'e', 's']
        · rfl
        · have h2 := endsWithL_trans_suffix hx ⟨['i', 'e'], rfl⟩
          rw [hts] at h2
          exact Bool.noConfusion h2
      rw [hy] at hlower hstrip ⊢
      refine normCatL_fixed hlower hstrip hties ?_
      intro hand
      rw [hts] at hand
      exact Bool.noConfusion hand.1
    · have hy : normCatL l = pyStripL (pyLowerL l) := by
        simp only [normCatL]
        rw [if_neg hies, if_neg hS]
      rw [hy] at hlower hstrip ⊢
      refine normCatL_fixed hlower hstrip ?_ hS
      cases hx : endsWithL (pyStripL (pyLowerL l)) ['i', 'e', 's']
      · rfl
      · exact absurd hx hies

/-- C10 counterexample: normalization is not idempotent: stripping the
trailing "s" of "a s" exposes trailing whitespace, so a second application
strips further ("a s" ↦ "a " ↦ "a"). -/
theorem C10_counterexample :
    normalize_category (normalize_category "a s") ≠ normalize_category "a s" := by
  decide

/-- C10 (amended): normalization is idempotent on every input whose
normalized form is strip-invariant, i.e. whenever dropping the plural suffix
does not expose trailing whitespace; the counterexample "a s" is exactly the
excluded situation. -/
theorem C10_amended (c : String)
    (h : pyStrip (normalize_category c) = normalize_category c) :
    normalize_category (normalize_category c) = normalize_category c := by
  have hl : pyStripL (normCatL c.data) = normCatL c.data := congrArg String.data h
  show (⟨normCatL (normCatL c.data)⟩ : String) = ⟨normCatL c.data⟩
  rw [normCatL_idem_of_strip c.data hl]

/-- C10 witness: idempotence at "Groceries", whose normal form "grocery" is
strip-invariant. -/
theorem C10_witness :
    normalize_category (normalize_category "Groceries")
      = normalize_category "Groceries" :=
  C10_amended "Groceries" (by decide)

/-- The category normalizer as §4.1 of the spec words it (refinement
reference, phrased via the reversed character list): lower-case and trim; a
trailing "ies" becomes "y"; otherwise a trailing "s" not preceded by another
"s" is dropped. -/
def normalizeSpec (c : String) : String :=
  let n := pyStripL (pyLowerL c.data)
  if n.reverse.take 3 = ['s', 'e', 'i'] then
    ⟨('y' :: n.reverse.drop 3).reverse⟩
  else if n.reverse.take 1 = ['s'] ∧ n.reverse.take 2 ≠ ['s', 's'] then
    ⟨(n.reverse.drop 1).reverse⟩
  else ⟨n⟩

theorem endsWithL_eq_take (n suf : List Char) :
    endsWithL n suf = true ↔ n.reverse.take suf.length = suf.reverse := by
  rw [endsWithL_iff, ← List.reverse_prefix, List.prefix_iff_eq_take,
    List.length_reverse]
  exact ⟨fun h => h.symm, fun h => h.symm⟩

theorem dropRightL_eq_reverse_drop (n : List Char) (k : Nat) :
    dropRightL n k = (n.reverse.drop k).reverse := by
  unfold dropRightL
  rw [List.drop_reverse, List.reverse_reverse]

theorem normalize_category_eq_spec (c : String) :
    normalize_category c = normalizeSpec c := by
  simp only [normalize_category, normalizeSpec, normCatL]
  have hies_iff : endsWithL (pyStripL (pyLowerL c.data)) ['i', 'e', 's'] = true ↔
      (pyStripL (pyLowerL c.data)).reverse.take 3 = ['s', 'e', 'i'] := by
    rw [endsWithL_eq_take]
    constructor <;> intro h <;> simpa using h
  have hs_iff : endsWithL (pyStripL (pyLowerL c.data)) ['s'] = true ↔
      (pyStripL (pyLowerL c.data)).reverse.take 1 = ['s'] := by
    rw [endsWithL_eq_take]
    constructor <;> intro h <;> simpa using h
  have hss_iff : endsWithL (pyStripL (pyLowerL c.data)) ['s', 's'] = true ↔
      (pyStripL (pyLowerL c.data)).reverse.take 2 = ['s', 's'] := by
    rw [endsWithL_eq_take]
    constructor <;> intro h <;> simpa using h
  by_cases hies : endsWithL (pyStripL (pyLowerL c.data)) ['i', 'e', 's'] = true
  · rw [if_pos hies, if_pos (hies_iff.1 hies)]
    refine congrArg String.mk ?_
    rw [dropRightL_eq_reverse_drop, List.reverse_cons]
  · rw [if_neg hies, if_neg (fun h => hies (hies_iff.2 h))]
    by_cases hS : endsWithL (pyStripL (pyLowerL c.data)) ['s'] = true ∧
        ¬endsWithL (pyStripL (pyLowerL c.data)) ['s', 's'] = true
    · rw [if_pos hS, if_pos ⟨hs_iff.1 hS.1, fun h => hS.2 (hss_iff.2 h)⟩]
      refine congrArg String.mk ?_
      exact dropRightL_eq_reverse_drop _ 1
    · rw [if_neg hS, if_neg
        (fun h => hS ⟨hs_iff.2 h.1, fun h2 => h.2 (hss_iff.1 h2)⟩)]

/-- C4 counterexample: `normalize_category "Bus"` is `"bu"`, not the claimed
`"bus"`: "bus" ends in a single "s" not preceded by another "s", so the rule
strips it. -/
theorem C4_counterexample :
    normalize_category "Bus" = "bu" ∧ normalize_category "Bus" ≠ "bus" :=
  ⟨by decide, by decide⟩

/-- C4 (amended): the normalizer lower-cases and trims, replaces a trailing
"ies" by "y", and otherwise drops a trailing "s" not preceded by another "s"
(it agrees with the spec-worded reference on every input); in particular
Groceries and Grocery normalize to "grocery" and Items to "item", but
Bus normalizes to "bu", not "bus". -/
theorem C4_amended :
    (∀ c : String, normalize_category c = normalizeSpec c) ∧
    normalize_category "Groceries" = "grocery" ∧
    normalize_category "Grocery" = "grocery" ∧
    normalize_category "Items" = "item" ∧
    normalize_category "Bus" = "bu" :=
  ⟨normalize_category_eq_spec, by decide, by decide, by decide, by decide⟩
